import Mathlib

/-!
# Slide / audio playback coordinator of `src/app.js`

A shallow embedding of the carousel controller: the module-level variables
(`active`, `currentAudio`, `audioTimeout`, `audioEnabled`,
`userControlledAudio`), the part of the page the handlers read and write
(slide items, their `.slide-audio` elements, the play/pause buttons, the
previous/next controls) and the two kinds of deferred callbacks the script
registers (play promises and the snippet timer) are one explicit `State`.
Every event handler of the script is a function `State → State`; the event
loop is `step`.

Conventions of the embedding.

* An audio element is identified by the index of the slide item that contains
  it (items are distinct elements, so their audio descendants are distinct).
  `currentAudio = some i` reads "the variable holds the audio element of item i".
* `HTMLMediaElement` is the platform, not part of the script.  Its calls are
  modelled on the fields the script reads: `play()` clears `paused` and returns
  a pending promise (the script's branch for a platform without promises is
  not modelled), `pause()` sets `paused`, assigning `currentTime = 0` rewinds
  and clears `ended`, assigning `src` and `load()` run the media element load
  algorithm (paused, rewound).  A promise settles, and a timer fires, as an
  event of its own; the settlement runs the registered handler and changes no
  field of the element by itself.  Any pending promise may be fulfilled or
  rejected; in a browser `pause()` rejects the pending play promises of its
  element, which is the rejection the concrete visits below use.
* `audio.src.includes(audioSrc)` is a test on URL text: `audio.src` reads the
  resolved absolute URL, `audioSrc` is the raw attribute of the `source` child.
  The embedding keeps its present truth value as the field `srcIncl`; what it
  becomes when the script assigns the source address to `audio.src` is a fact
  of the markup, the field `addrIncl` (false when resolving changes the text of
  the attribute, as for `audio/my song.mp3` or `./a.mp3`).  `source.src` and
  `source.getAttribute('src')` are taken to be empty together.
* `setTimeout` returns positive ids, so `if (audioTimeout)` is `isSome`.
* The markup (`Dom`) is a parameter: which items have an audio element, what
  address it and its `source` child carry, which indices have a play/pause
  button.  Audio elements start paused at time 0 and no button starts with the
  class `playing`.
-/

namespace Slider

/-- Fields of one `.slide-audio` element that the script reads or writes. -/
structure Audio where
  /-- The `source` child: `none` when absent, `some b` when present, with `b`
  telling whether it carries a non-empty `src` address. -/
  source : Option Bool
  /-- Truth of `audio.src` (the element's own address is set). -/
  src : Bool
  /-- Truth of `audio.src.includes(audioSrc)`. -/
  srcIncl : Bool
  /-- Truth of `u.includes(audioSrc)` for the URL `u` that `audio.src` reads
  once the source address has been assigned to it. -/
  addrIncl : Bool
  paused : Bool
  ended : Bool
  /-- Playback position in milliseconds. -/
  currentTime : Nat
  deriving DecidableEq, Repr

/-- The handlers chained on a `play()` promise, by the place that made the call:
`enableAudio` (lines 25-30), `playAudioSnippet` (lines 121-128) and the
play/pause button handler (lines 288-305), which captures `slideIndex`. -/
inductive Handler where
  | unlock
  | snippet
  | toggle (slideIndex : Int)
  deriving DecidableEq, Repr

/-- A pending play promise: the element `play()` was called on and the handlers. -/
structure Attempt where
  id : Nat
  audio : Nat
  handler : Handler
  deriving DecidableEq, Repr

/-- An armed `setTimeout` of `playAudioSnippet`; its callback captures `audio`. -/
structure Timer where
  id : Nat
  audio : Nat
  delay : Nat
  deriving DecidableEq, Repr

/-- The script's variables together with the page state they act on. -/
structure State where
  /-- Value of `items.length`. -/
  n : Nat
  /-- The `.slide-audio` element of item `i`, if it has one. -/
  audio : Nat → Option Audio
  /-- Item `i` carries the class `active`. -/
  mark : Nat → Bool
  /-- A `.play-pause-btn` with `data-slide` equal to the index exists. -/
  hasButton : Int → Bool
  /-- That button carries the class `playing`. -/
  playing : Int → Bool
  /-- The next control carries `d-none`. -/
  nextHidden : Bool
  /-- The previous control carries `d-none`. -/
  prevHidden : Bool
  active : Int
  currentAudio : Option Nat
  audioTimeout : Option Nat
  audioEnabled : Bool
  userControlledAudio : Bool
  /-- Timers that are armed (set, neither cleared nor fired). -/
  timers : List Timer
  /-- Play promises that have not settled. -/
  pending : List Attempt
  nextTimer : Nat
  nextAttempt : Nat

/-- Constant `SNIPPET_DURATION` (line 12). -/
def SNIPPET_DURATION : Nat := 60000

/-- Pointwise overwrite of a table. -/
def setAt {α β : Type} [DecidableEq α] (f : α → β) (i : α) (v : β) : α → β :=
  fun j => if j = i then v else f j

/-- Apply `f` to the audio element of item `i`, when there is one. -/
def modAudio (s : State) (i : Nat) (f : Audio → Audio) : State :=
  { s with audio := setAt s.audio i ((s.audio i).map f) }

/-- Platform call `audio.pause()`. -/
def pause (s : State) (i : Nat) : State :=
  modAudio s i (fun a => { a with paused := true })

/-- Assignment `audio.currentTime = 0`. -/
def seek0 (s : State) (i : Nat) : State :=
  modAudio s i (fun a => { a with currentTime := 0, ended := false })

/-- Platform call `audio.load()`: the media element load algorithm. -/
def load (s : State) (i : Nat) : State :=
  modAudio s i (fun a => { a with paused := true, ended := false, currentTime := 0 })

/-- Assignment of the source address to `audio.src`; the assignment runs the
load algorithm. -/
def assignSrc (s : State) (i : Nat) : State :=
  modAudio s i (fun a =>
    { a with src := true, srcIncl := a.addrIncl, paused := true, ended := false,
             currentTime := 0 })

/-- Platform call `audio.play()` with the handlers `h` chained on its promise. -/
def play (s : State) (i : Nat) (h : Handler) : State :=
  { modAudio s i (fun a => { a with paused := false }) with
    pending := s.pending ++ [{ id := s.nextAttempt, audio := i, handler := h }]
    nextAttempt := s.nextAttempt + 1 }

/-- Lookup `items[k]` for a number `k`: the item index, or `none` for `undefined`. -/
def item? (s : State) (k : Int) : Option Nat :=
  if 0 ≤ k ∧ k < (s.n : Int) then some k.toNat else none

/-- Function `enableAudio` (lines 15-35). -/
def enableAudio (s : State) : State :=
  if s.audioEnabled then s
  else
    let s1 := { s with audioEnabled := true }
    if s1.n = 0 then s1
    else
      match s1.audio 0 with
      | none => s1
      | some a =>
        if a.source = some true then play (assignSrc s1 0) 0 Handler.unlock
        else s1

/-- Function `updatePlayPauseButton` (lines 42-51). -/
def updatePlayPauseButton (s : State) (slideIndex : Int) (isPlaying : Bool) : State :=
  if s.hasButton slideIndex then { s with playing := setAt s.playing slideIndex isPlaying }
  else s

/-- Function `resetAllPlayPauseButtons` (lines 63-67). -/
def resetAllPlayPauseButtons (s : State) : State :=
  { s with playing := fun _ => false }

/-- Call `clearTimeout(audioTimeout); audioTimeout = null` under `if (audioTimeout)`. -/
def clearAudioTimeout (s : State) : State :=
  match s.audioTimeout with
  | some t => { s with timers := s.timers.filter (fun x => x.id ≠ t), audioTimeout := none }
  | none => s

/-- Function `stopAllAudio` (lines 71-82). -/
def stopAllAudio (s : State) : State :=
  let s1 :=
    match s.currentAudio with
    | some h => { seek0 (pause s h) h with currentAudio := none }
    | none => s
  resetAllPlayPauseButtons (clearAudioTimeout s1)

/-- Lines 111-139 of `playAudioSnippet`: the element of item `i` becomes
current, is rewound, loaded and played, and the snippet timer is armed. -/
def startSnippet (s : State) (i : Nat) : State :=
  let s1 := { s with currentAudio := some i }
  let s2 := play (load (seek0 s1 i) i) i Handler.snippet
  { s2 with
    audioTimeout := some s2.nextTimer
    timers := { id := s2.nextTimer, audio := i, delay := SNIPPET_DURATION } :: s2.timers
    nextTimer := s2.nextTimer + 1 }

/-- Truth of `audio.src` for the element of item `i`. -/
def srcSet (s : State) (i : Nat) : Bool :=
  match s.audio i with
  | some a => a.src
  | none => false

/-- Function `playAudioSnippet` (lines 85-144). -/
def playAudioSnippet (s : State) : State :=
  if s.userControlledAudio then s
  else
    let s1 := stopAllAudio s
    if !s1.audioEnabled then s1
    else
      match item? s1 s1.active with
      | none => s1
      | some i =>
        match s1.audio i with
        | none => s1
        | some a =>
          let s2 := if a.source = some true then assignSrc s1 i else s1
          if srcSet s2 i then startSnippet s2 i else s2

/-- Result of `document.querySelector('.slider .list .item.active')`. -/
def oldActive (s : State) : Option Nat :=
  (List.range s.n).find? (fun j => s.mark j)

/-- Function `setSlider` (lines 146-163).  When `items[active]` is `undefined`
line 151 throws a `TypeError` and the handler ends there. -/
def setSlider (s : State) : State :=
  let s1 :=
    match oldActive s with
    | some j => { s with mark := setAt s.mark j false }
    | none => s
  match item? s1 s1.active with
  | none => s1
  | some i =>
    let s2 := { s1 with mark := setAt s1.mark i true, nextHidden := false, prevHidden := false }
    let s3 := if s2.active = (s2.n : Int) - 1 then { s2 with nextHidden := true } else s2
    let s4 := if s3.active = (0 : Int) then { s3 with prevHidden := true } else s3
    playAudioSnippet { s4 with userControlledAudio := false }

/-- The element of item `k` seen as a handle. -/
def audioHandle (s : State) (k : Nat) : Option Nat :=
  if (s.audio k).isSome then some k else none

/-- Line 273: `Array.from(items).findIndex(item => item.querySelector('.slide-audio') === currentAudio)`. -/
def findOwner (s : State) (h : Nat) : Option Nat :=
  (List.range s.n).find? (fun k => audioHandle s k == some h)

/-- Truth of `!audio.paused && !audio.ended` for the element of item `i`. -/
def notPausedNotEnded (s : State) (i : Nat) : Bool :=
  match s.audio i with
  | some a => !a.paused && !a.ended
  | none => false

/-- Lines 252-264: the pause branch of the play/pause handler. -/
def togglePause (s : State) (i : Nat) (slideIndex : Int) : State :=
  let s1 := clearAudioTimeout (pause s i)
  let s2 := if s1.currentAudio = some i then { s1 with currentAudio := none } else s1
  { updatePlayPauseButton s2 slideIndex false with userControlledAudio := false }

/-- Lines 270-277: stop the other audio, if one is current. -/
def stopOther (s : State) (i : Nat) : State :=
  match s.currentAudio with
  | none => s
  | some h =>
    if h = i then s
    else
      let s1 := seek0 (pause s h) h
      match findOwner s1 h with
      | some o => updatePlayPauseButton s1 (o : Int) false
      | none => s1

/-- Lines 265-311: the play branch of the play/pause handler. -/
def togglePlay (s : State) (i : Nat) (slideIndex : Int) : State :=
  let s1 := stopOther s i
  let s2 := { s1 with currentAudio := some i }
  play (seek0 s2 i) i (Handler.toggle slideIndex)

/-- Lines 243-246: bind the source address to the element unless `audio.src`
already contains it. -/
def rebind (s : State) (i : Nat) (a : Audio) : State :=
  if !a.src || !a.srcIncl then load (assignSrc s i) i else s

/-- Lines 250-311: pause when this audio is the current handle and is neither
paused nor ended, play otherwise. -/
def toggleBranch (s : State) (i : Nat) (slideIndex : Int) : State :=
  if s.currentAudio = some i ∧ notPausedNotEnded s i = true then togglePause s i slideIndex
  else togglePlay s i slideIndex

/-- The play/pause button handler (lines 204-312); `idx` is the result of
`parseInt(btn.getAttribute('data-slide'), 10)`, `none` standing for `NaN`. -/
def toggleUserPlayback (s : State) (idx : Option Int) : State :=
  let s1 := { enableAudio s with userControlledAudio := true }
  match idx with
  | none => s1
  | some k =>
    match item? s1 k with
    | none => s1
    | some i =>
      match s1.audio i with
      | none => s1
      | some a =>
        match a.source with
        | none => s1
        | some false => s1
        | some true => toggleBranch (rebind s1 i a) i k

/-- Handler `nextBtn.onclick` (lines 373-377). -/
def goNext (s : State) : State :=
  let s1 := enableAudio s
  setSlider { s1 with active := s1.active + 1 }

/-- Handler `prevBtn.onclick` (lines 379-383). -/
def goPrevious (s : State) : State :=
  let s1 := enableAudio s
  setSlider { s1 with active := s1.active - 1 }

/-- Lines 326-329 and 417-419: the guarded assignment of `active`. -/
def jumpIfValid (s : State) (idx : Option Int) : State :=
  match idx with
  | none => s
  | some k => if 0 ≤ k ∧ k < (s.n : Int) then setSlider { s with active := k } else s

/-- Track-link handler (lines 322-330); `idx` is the parsed `data-slide`. -/
def trackLink (s : State) (idx : Option Int) : State :=
  jumpIfValid s idx

/-- Menu-link handler (lines 413-425). -/
def menuLink (s : State) (idx : Option Int) : State :=
  jumpIfValid (enableAudio s) idx

/-- The snippet timer's callback (lines 132-139) for captured element `h`. -/
def expire (s : State) (h : Nat) : State :=
  if s.currentAudio = some h ∧ s.userControlledAudio = false then
    updatePlayPauseButton { seek0 (pause s h) h with currentAudio := none } s.active false
  else s

/-- The armed timer `id` fires: it leaves the armed set and its callback runs. -/
def fireTimer (s : State) (id : Nat) : State :=
  match s.timers.find? (fun t => t.id = id) with
  | none => s
  | some t => expire { s with timers := s.timers.filter (fun x => x.id ≠ id) } t.audio

/-- The handler a settled play promise runs. -/
def runHandler (s : State) (p : Attempt) (ok : Bool) : State :=
  match p.handler, ok with
  | Handler.unlock, true => seek0 (pause s p.audio) p.audio
  | Handler.unlock, false => s
  | Handler.snippet, true => updatePlayPauseButton s s.active true
  | Handler.snippet, false => updatePlayPauseButton s s.active false
  | Handler.toggle k, true => clearAudioTimeout (updatePlayPauseButton s k true)
  | Handler.toggle k, false =>
    { updatePlayPauseButton s k false with userControlledAudio := false, currentAudio := none }

/-- The pending play promise `id` settles: fulfilled when `ok`, rejected otherwise. -/
def settle (s : State) (id : Nat) (ok : Bool) : State :=
  match s.pending.find? (fun p => p.id = id) with
  | none => s
  | some p => runHandler { s with pending := s.pending.filter (fun x => x.id ≠ id) } p ok

/-- Listeners of `setupAudioEventListeners` (lines 172-188) for item `i`. -/
def mediaListener (s : State) (i : Nat) (isPlaying : Bool) : State :=
  if i < s.n ∧ (s.audio i).isSome then updatePlayPauseButton s (i : Int) isPlaying else s

/-- Playback of element `i` reaches the end of its resource: the platform sets
`ended` and `paused` and dispatches `pause` and `ended`. -/
def playbackEnded (s : State) (i : Nat) : State :=
  if notPausedNotEnded s i then
    mediaListener (modAudio s i (fun a => { a with ended := true, paused := true })) i false
  else s

/-- Playback of element `i` advances by `dt` milliseconds while it is not paused. -/
def elapse (s : State) (i dt : Nat) : State :=
  if notPausedNotEnded s i then
    modAudio s i (fun a => { a with currentTime := a.currentTime + dt })
  else s

/-- What can happen to the page after `init`. -/
inductive Event where
  | goNext
  | goPrevious
  | trackLink (idx : Option Int)
  | menuLink (idx : Option Int)
  | toggle (idx : Option Int)
  | menuOpen
  | docClick
  | fire (timer : Nat)
  | settle (attempt : Nat) (ok : Bool)
  | mediaPlay (i : Nat)
  | mediaPause (i : Nat)
  | mediaEnded (i : Nat)
  | elapse (i dt : Nat)
  deriving DecidableEq, Repr

/-- One turn of the event loop. -/
def step (s : State) : Event → State
  | Event.goNext => goNext s
  | Event.goPrevious => goPrevious s
  | Event.trackLink idx => trackLink s idx
  | Event.menuLink idx => menuLink s idx
  | Event.toggle idx => toggleUserPlayback s idx
  | Event.menuOpen => stopAllAudio s
  | Event.docClick => enableAudio s
  | Event.fire t => fireTimer s t
  | Event.settle a ok => settle s a ok
  | Event.mediaPlay i => mediaListener s i true
  | Event.mediaPause i => mediaListener s i false
  | Event.mediaEnded i => playbackEnded s i
  | Event.elapse i dt => elapse s i dt

/-- The markup of one `.slide-audio` element. -/
structure AudioDecl where
  source : Option Bool
  src : Bool
  srcIncl : Bool
  addrIncl : Bool
  deriving DecidableEq, Repr

/-- The page the script is loaded into. -/
structure Dom where
  n : Nat
  audio : Nat → Option AudioDecl
  hasButton : Int → Bool
  mark : Nat → Bool

/-- The state when the script has been evaluated and before `init` runs. -/
def loaded (d : Dom) : State :=
  { n := d.n
    audio := fun i => (d.audio i).map (fun a =>
      { source := a.source, src := a.src, srcIncl := a.srcIncl, addrIncl := a.addrIncl,
        paused := true, ended := false, currentTime := 0 })
    mark := d.mark
    hasButton := d.hasButton
    playing := fun _ => false
    nextHidden := false
    prevHidden := false
    active := 0
    currentAudio := none
    audioTimeout := none
    audioEnabled := false
    userControlledAudio := false
    timers := []
    pending := []
    nextTimer := 1
    nextAttempt := 0 }

/-- Function `init` (lines 348-437) on a page with at least one item and both
navigation controls: the first `setSlider()` call. -/
def init (d : Dom) : State :=
  setSlider (loaded d)

/-- The state after `init` and the events `evs`, in order. -/
def run (d : Dom) (evs : List Event) : State :=
  evs.foldl step (init d)

/-- States the page can be in. -/
inductive Reachable (d : Dom) : State → Prop where
  | init : Reachable d (init d)
  | step {s : State} (e : Event) : Reachable d s → Reachable d (step s e)

/-- Facts that hold of every state the page can be in. -/
structure Inv (s : State) : Prop where
  /-- An armed timer is the one `audioTimeout` names. -/
  timers_sub : ∀ t ∈ s.timers, s.audioTimeout = some t.id
  timers_fresh : ∀ t ∈ s.timers, t.id < s.nextTimer
  pending_fresh : ∀ p ∈ s.pending, p.id < s.nextAttempt
  /-- The current handle is the audio of an item, with an address bound. -/
  cur_bound : ∀ h, s.currentAudio = some h →
    h < s.n ∧ ∃ a, s.audio h = some a ∧ a.src = true
  cur_enabled : ∀ h, s.currentAudio = some h → s.audioEnabled = true
  /-- Only a button that exists carries the class `playing`. -/
  playing_sub : ∀ k, s.playing k = true → s.hasButton k = true

/-- An update of an audio element that leaves its markup alone and keeps a
bound address bound. -/
def KeepsSrc (f : Audio → Audio) : Prop :=
  ∀ a, (f a).source = a.source ∧ (a.src = true → (f a).src = true)

/-- No play promise is pending. -/
def Quiescent (s : State) : Prop :=
  s.pending = []

/-- No two distinct slide audio elements are not paused at the same time. -/
def NoOverlap (s : State) : Prop :=
  ∀ i j a b, i < s.n → j < s.n → s.audio i = some a → s.audio j = some b →
    a.paused = false → b.paused = false → i = j

/-- A page of three items: the first has no audio, the second and the third
have an audio element with a `source` child that carries an address; each item
has a play/pause button; the markup marks the first item active. -/
def pageThree : Dom :=
  { n := 3
    audio := fun i =>
      if i = 1 ∨ i = 2 then
        some { source := some true, src := false, srcIncl := false, addrIncl := true }
      else none
    hasButton := fun k => decide (0 ≤ k ∧ k < 3)
    mark := fun i => decide (i = 0) }

/-- A visit that ends with two audio elements playing: next (snippet of item 1
starts and plays), pause and play again with the button of item 1, next while
that play promise is pending (item 1 is paused, snippet of item 2 starts), the
paused promise is rejected, the snippet of item 2 plays, previous (snippet of
item 1 starts and plays). -/
def overlapTrace : List Event :=
  [Event.goNext, Event.settle 0 true, Event.toggle (some 1), Event.toggle (some 1),
   Event.goNext, Event.settle 1 false, Event.settle 2 true, Event.goPrevious,
   Event.settle 3 true]

/-- The state in which a navigation to item 1 of `pageThree` calls
`playAudioSnippet`, when before it the snippet of item 1 was started and played
for ten seconds and the user then started, with its button, the audio of item 2,
five seconds ago. -/
def snippetCallState : State :=
  { run pageThree [Event.goNext, Event.settle 0 true, Event.elapse 1 10000,
      Event.toggle (some 2), Event.elapse 2 5000] with
    userControlledAudio := false }

/-- The handler that led from `s` to `t` kept the item count and the active
index and armed no timer. -/
def Frame (s t : State) : Prop :=
  t.n = s.n ∧ t.active = s.active ∧ ∀ x ∈ t.timers, x ∈ s.timers

/-- An armed timer captured the audio of the active item, as long as the
active index is in range. -/
def TimerOfActive (s : State) : Prop :=
  ∀ t ∈ s.timers, ∀ i, item? s s.active = some i → t.audio = i

/-- A visit of `pageThree` that leaves the active index out of range while the
snippet of the last item plays: next, next (each snippet starts and plays),
sixty seconds of playback, and next once more, issued although the next control
is hidden. -/
def pastTheEndTrace : List Event :=
  [Event.goNext, Event.settle 0 true, Event.goNext, Event.settle 1 true,
   Event.elapse 2 60000, Event.goNext]

/-- The first five events of `overlapTrace`: the play promise of item 1's button
is pending when next makes the audio of item 2 current. -/
def staleTrace : List Event :=
  [Event.goNext, Event.settle 0 true, Event.toggle (some 1), Event.toggle (some 1),
   Event.goNext]

/-- A page of two items whose second item has an audio element with its own
`src` attribute and no `source` child; both items have a play/pause button. -/
def pageOwnSrc : Dom :=
  { n := 2
    audio := fun i =>
      if i = 1 then some { source := none, src := true, srcIncl := false, addrIncl := false }
      else none
    hasButton := fun k => decide (0 ≤ k ∧ k < 2)
    mark := fun i => decide (i = 0) }

/-- A visit of `pageThree` that ends on the last item under user control: next,
next, then the button of item 2 twice (pause, play again). -/
def lastItemUserTrace : List Event :=
  [Event.goNext, Event.settle 0 true, Event.goNext, Event.settle 1 true,
   Event.toggle (some 2), Event.toggle (some 2), Event.settle 2 true]

/-- The first seven events of `overlapTrace`: the audio of item 2 plays and the
rejected promise of item 1's button has cleared the current handle. -/
def untrackedTrace : List Event :=
  [Event.goNext, Event.settle 0 true, Event.toggle (some 1), Event.toggle (some 1),
   Event.goNext, Event.settle 1 false, Event.settle 2 true]

/-- A state of `pageThree` in which item 0, which has no audio, is the active
item while the snippet of item 1 plays: the variables as a navigation back to
item 0 has set them when `setSlider` calls `playAudioSnippet`. -/
def silentItemCallState : State :=
  { run pageThree [Event.goNext, Event.settle 0 true, Event.elapse 1 10000] with active := 0 }

/-- The handler that led from `s` to `t` left the navigation state alone: the
item count, the active index, the active marks and the two controls. -/
def NavFrame (s t : State) : Prop :=
  t.n = s.n ∧ t.active = s.active ∧ t.mark = s.mark ∧ t.nextHidden = s.nextHidden ∧
    t.prevHidden = s.prevHidden

/-- At most one item carries the class `active`. -/
def AtMostOneMark (s : State) : Prop :=
  ∀ j j', j < s.n → j' < s.n → s.mark j = true → s.mark j' = true → j = j'

/-- The navigation state after a completed `setSlider`: when the active index
is in range its item, and only its item, carries the mark, the next control is
hidden exactly at the last index and the previous control exactly at index 0. -/
def NavInv (s : State) : Prop :=
  AtMostOneMark s ∧
  ∀ i, item? s s.active = some i →
    s.mark i = true ∧ (s.nextHidden = true ↔ s.active = (s.n : Int) - 1) ∧
      (s.prevHidden = true ↔ s.active = 0)

/-- The markup marks at most one item active. -/
def MarkupOk (d : Dom) : Prop :=
  ∀ j j', j < d.n → j' < d.n → d.mark j = true → d.mark j' = true → j = j'

/-- States reachable when next is issued only while the next control is visible
and previous only while the previous control is visible. -/
inductive GuardedReachable (d : Dom) : State → Prop where
  | init : GuardedReachable d (init d)
  | step {s : State} (e : Event) : GuardedReachable d s →
      (e = Event.goNext → s.nextHidden = false) →
      (e = Event.goPrevious → s.prevHidden = false) → GuardedReachable d (step s e)

/-- The active index is in range and the controls show it: next is hidden
exactly at the last index, previous exactly at index 0. -/
def ControlsInv (s : State) : Prop :=
  0 ≤ s.active ∧ s.active < (s.n : Int) ∧
    (s.nextHidden = true ↔ s.active = (s.n : Int) - 1) ∧ (s.prevHidden = true ↔ s.active = 0)

/-- A page of two items whose second item has an audio element with a `source`
child whose address changes its text when resolved (such as
`audio/my song.mp3`, which `audio.src` reads as `.../audio/my%20song.mp3`), so
that `audio.src` never contains the text of the attribute; both items have a
play/pause button. -/
def pageEncodedSrc : Dom :=
  { n := 2
    audio := fun i =>
      if i = 1 then some { source := some true, src := false, srcIncl := false, addrIncl := false }
      else none
    hasButton := fun k => decide (0 ≤ k ∧ k < 2)
    mark := fun i => decide (i = 0) }

/-! ## Elementary facts about the primitives -/

theorem setAt_same {α β : Type} [DecidableEq α] (f : α → β) (i : α) (v : β) :
    setAt f i v i = v := by
  simp [setAt]

theorem setAt_other {α β : Type} [DecidableEq α] (f : α → β) (i j : α) (v : β) (h : j ≠ i) :
    setAt f i v j = f j := by
  simp [setAt, h]

theorem inv_modAudio {s : State} (h : Inv s) (i : Nat) {f : Audio → Audio} (hf : KeepsSrc f) :
    Inv (modAudio s i f) := by
  refine ⟨h.timers_sub, h.timers_fresh, h.pending_fresh, ?_, h.cur_enabled, h.playing_sub⟩
  intro c hc
  obtain ⟨hlt, a, ha, hs⟩ := h.cur_bound c hc
  refine ⟨hlt, ?_⟩
  by_cases hci : c = i
  · subst hci
    exact ⟨f a, by simp [modAudio, setAt, ha], (hf a).2 hs⟩
  · exact ⟨a, by simp [modAudio, setAt, hci, ha], hs⟩

theorem keepsSrc_pause : KeepsSrc (fun a => { a with paused := true }) := by
  intro a; simp

theorem keepsSrc_unpause : KeepsSrc (fun a => { a with paused := false }) := by
  intro a; simp

theorem keepsSrc_seek0 : KeepsSrc (fun a => { a with currentTime := 0, ended := false }) := by
  intro a; simp

theorem keepsSrc_load :
    KeepsSrc (fun a => { a with paused := true, ended := false, currentTime := 0 }) := by
  intro a; simp

theorem keepsSrc_assignSrc :
    KeepsSrc (fun a =>
      { a with src := true, srcIncl := a.addrIncl, paused := true, ended := false,
               currentTime := 0 }) := by
  intro a; simp

theorem inv_pause {s : State} (h : Inv s) (i : Nat) : Inv (pause s i) :=
  inv_modAudio h i keepsSrc_pause

theorem inv_seek0 {s : State} (h : Inv s) (i : Nat) : Inv (seek0 s i) :=
  inv_modAudio h i keepsSrc_seek0

theorem inv_load {s : State} (h : Inv s) (i : Nat) : Inv (load s i) :=
  inv_modAudio h i keepsSrc_load

theorem inv_assignSrc {s : State} (h : Inv s) (i : Nat) : Inv (assignSrc s i) :=
  inv_modAudio h i keepsSrc_assignSrc

theorem inv_play {s : State} (h : Inv s) (i : Nat) (k : Handler) : Inv (play s i k) := by
  have h1 := inv_modAudio h i keepsSrc_unpause
  refine ⟨h1.timers_sub, h1.timers_fresh, ?_, h1.cur_bound, h1.cur_enabled, h1.playing_sub⟩
  intro p hp
  simp only [play, List.mem_append, List.mem_singleton] at hp
  rcases hp with hp | hp
  · have := h.pending_fresh p hp
    simp only [play]; omega
  · subst hp
    simp [play]

theorem inv_updatePlayPauseButton {s : State} (h : Inv s) (k : Int) (b : Bool) :
    Inv (updatePlayPauseButton s k b) := by
  unfold updatePlayPauseButton
  split
  · rename_i hb
    refine ⟨h.timers_sub, h.timers_fresh, h.pending_fresh, h.cur_bound, h.cur_enabled, ?_⟩
    intro j hj
    by_cases hjk : j = k
    · subst hjk; exact hb
    · simp only [setAt, hjk, if_false] at hj
      exact h.playing_sub j hj
  · exact h

theorem inv_resetAllPlayPauseButtons {s : State} (h : Inv s) :
    Inv (resetAllPlayPauseButtons s) := by
  refine ⟨h.timers_sub, h.timers_fresh, h.pending_fresh, h.cur_bound, h.cur_enabled, ?_⟩
  intro j hj
  simp [resetAllPlayPauseButtons] at hj

theorem clearAudioTimeout_audioTimeout (s : State) : (clearAudioTimeout s).audioTimeout = none := by
  unfold clearAudioTimeout
  split
  · rfl
  · assumption

theorem clearAudioTimeout_timers {s : State} (h : Inv s) : (clearAudioTimeout s).timers = [] := by
  unfold clearAudioTimeout
  split
  · rename_i t ht
    simp only [List.filter_eq_nil_iff]
    intro x hx
    have := h.timers_sub x hx
    rw [ht] at this
    simp at this
    simp [this]
  · rename_i ht
    cases hts : s.timers with
    | nil => rfl
    | cons x xs =>
      have := h.timers_sub x (by simp [hts])
      rw [ht] at this
      simp at this

theorem inv_clearAudioTimeout {s : State} (h : Inv s) : Inv (clearAudioTimeout s) := by
  have ht := clearAudioTimeout_timers h
  refine ⟨?_, ?_, ?_, ?_, ?_, ?_⟩
  · intro t hm; rw [ht] at hm; simp at hm
  · intro t hm; rw [ht] at hm; simp at hm
  · unfold clearAudioTimeout; split <;> exact h.pending_fresh
  · unfold clearAudioTimeout; split <;> exact h.cur_bound
  · unfold clearAudioTimeout; split <;> exact h.cur_enabled
  · unfold clearAudioTimeout; split <;> exact h.playing_sub

theorem inv_clearCurrent {s : State} (h : Inv s) : Inv { s with currentAudio := none } := by
  refine ⟨h.timers_sub, h.timers_fresh, h.pending_fresh, ?_, ?_, h.playing_sub⟩
  · intro c hc; simp at hc
  · intro c hc; simp at hc

theorem inv_stopAllAudio {s : State} (h : Inv s) : Inv (stopAllAudio s) := by
  unfold stopAllAudio
  apply inv_resetAllPlayPauseButtons
  apply inv_clearAudioTimeout
  split
  · exact inv_clearCurrent (inv_seek0 (inv_pause h _) _)
  · exact h

theorem item?_eq_some {s : State} {k : Int} {i : Nat} (h : item? s k = some i) :
    0 ≤ k ∧ k < (s.n : Int) ∧ (i : Int) = k ∧ i < s.n := by
  unfold item? at h
  split at h
  · rename_i hk
    simp only [Option.some.injEq] at h
    omega
  · simp at h

theorem item?_of_range (s : State) {k : Int} (h : 0 ≤ k ∧ k < (s.n : Int)) :
    item? s k = some k.toNat := by
  simp [item?, h]

theorem inv_startSnippet {s : State} (h : Inv s) (i : Nat) (ht : s.timers = [])
    (hen : s.audioEnabled = true) (hi : i < s.n)
    (ha : ∃ a, s.audio i = some a ∧ a.src = true) :
    Inv (startSnippet s i) := by
  have h1 : Inv { s with currentAudio := some i } := by
    refine ⟨h.timers_sub, h.timers_fresh, h.pending_fresh, ?_, ?_, h.playing_sub⟩
    · intro c hc
      simp only [Option.some.injEq] at hc
      subst hc
      exact ⟨hi, ha⟩
    · intro c _; exact hen
  have h2 := inv_play (inv_load (inv_seek0 h1 i) i) i Handler.snippet
  have ht2 : (play (load (seek0 { s with currentAudio := some i } i) i) i Handler.snippet).timers
      = [] := ht
  unfold startSnippet
  refine ⟨?_, ?_, h2.pending_fresh, h2.cur_bound, h2.cur_enabled, h2.playing_sub⟩
  · intro t hm
    simp only [ht2, List.mem_singleton] at hm
    subst hm
    rfl
  · intro t hm
    simp only [ht2, List.mem_singleton] at hm
    subst hm
    simp

theorem stopAllAudio_timers {s : State} (h : Inv s) : (stopAllAudio s).timers = [] := by
  unfold stopAllAudio
  have : ∀ s1 : State, Inv s1 → (resetAllPlayPauseButtons (clearAudioTimeout s1)).timers = [] :=
    fun s1 h1 => clearAudioTimeout_timers h1
  apply this
  split
  · exact inv_clearCurrent (inv_seek0 (inv_pause h _) _)
  · exact h

theorem inv_playAudioSnippet {s : State} (h : Inv s) : Inv (playAudioSnippet s) := by
  unfold playAudioSnippet
  split
  · exact h
  · have h1 := inv_stopAllAudio h
    have ht := stopAllAudio_timers h
    simp only []
    split
    · exact h1
    · rename_i hen
      simp only [Bool.not_eq_true, Bool.not_eq_eq_eq_not, Bool.not_true, Bool.not_eq_false] at hen
      split
      · exact h1
      · rename_i i hi
        have hin := (item?_eq_some hi).2.2.2
        split
        · exact h1
        · rename_i a ha
          by_cases hs : a.source = some true
          · have hsrc : ∃ b, (assignSrc (stopAllAudio s) i).audio i = some b ∧ b.src = true := by
              simp [assignSrc, modAudio, setAt, ha]
            have hset : srcSet (assignSrc (stopAllAudio s) i) i = true := by
              simp [srcSet, assignSrc, modAudio, setAt, ha]
            simp only [hs, if_true, hset]
            exact inv_startSnippet (inv_assignSrc h1 i) i ht hen hin hsrc
          · simp only [hs, if_false]
            split
            · rename_i hset
              have hsrc : ∃ b, (stopAllAudio s).audio i = some b ∧ b.src = true := by
                refine ⟨a, ha, ?_⟩
                simpa [srcSet, ha] using hset
              exact inv_startSnippet h1 i ht hen hin hsrc
            · exact h1

theorem inv_setSlider {s : State} (h : Inv s) : Inv (setSlider s) := by
  unfold setSlider
  have h1 : Inv (match oldActive s with
      | some j => { s with mark := setAt s.mark j false }
      | none => s) := by
    split
    · exact ⟨h.timers_sub, h.timers_fresh, h.pending_fresh, h.cur_bound, h.cur_enabled,
        h.playing_sub⟩
    · exact h
  revert h1
  generalize (match oldActive s with
      | some j => { s with mark := setAt s.mark j false }
      | none => s) = s1
  intro h1
  simp only []
  split
  · exact h1
  · rename_i i hi
    apply inv_playAudioSnippet
    split <;> split <;>
      exact ⟨h1.timers_sub, h1.timers_fresh, h1.pending_fresh, h1.cur_bound, h1.cur_enabled,
        h1.playing_sub⟩

theorem inv_enableAudio {s : State} (h : Inv s) : Inv (enableAudio s) := by
  unfold enableAudio
  split
  · exact h
  · have h1 : Inv { s with audioEnabled := true } :=
      ⟨h.timers_sub, h.timers_fresh, h.pending_fresh, h.cur_bound, fun _ _ => rfl, h.playing_sub⟩
    simp only []
    split
    · exact h1
    · split
      · exact h1
      · split
        · exact inv_play (inv_assignSrc h1 0) 0 Handler.unlock
        · exact h1

theorem enableAudio_audioEnabled (s : State) : (enableAudio s).audioEnabled = true := by
  unfold enableAudio
  split
  · assumption
  · simp only []
    split
    · rfl
    · split
      · rfl
      · split <;> rfl

theorem inv_setActive {s : State} (h : Inv s) (k : Int) : Inv { s with active := k } :=
  ⟨h.timers_sub, h.timers_fresh, h.pending_fresh, h.cur_bound, h.cur_enabled, h.playing_sub⟩

theorem inv_setUserControlled {s : State} (h : Inv s) (b : Bool) :
    Inv { s with userControlledAudio := b } :=
  ⟨h.timers_sub, h.timers_fresh, h.pending_fresh, h.cur_bound, h.cur_enabled, h.playing_sub⟩

theorem inv_goNext {s : State} (h : Inv s) : Inv (goNext s) :=
  inv_setSlider (inv_setActive (inv_enableAudio h) _)

theorem inv_goPrevious {s : State} (h : Inv s) : Inv (goPrevious s) :=
  inv_setSlider (inv_setActive (inv_enableAudio h) _)

theorem inv_jumpIfValid {s : State} (h : Inv s) (idx : Option Int) : Inv (jumpIfValid s idx) := by
  unfold jumpIfValid
  split
  · exact h
  · split
    · exact inv_setSlider (inv_setActive h _)
    · exact h

theorem inv_togglePause {s : State} (h : Inv s) (i : Nat) (k : Int) : Inv (togglePause s i k) := by
  unfold togglePause
  apply inv_setUserControlled
  apply inv_updatePlayPauseButton
  have h1 := inv_clearAudioTimeout (inv_pause h i)
  split
  · exact inv_clearCurrent h1
  · exact h1

theorem inv_stopOther {s : State} (h : Inv s) (i : Nat) : Inv (stopOther s i) := by
  unfold stopOther
  split
  · exact h
  · split
    · exact h
    · simp only []
      split
      · exact inv_updatePlayPauseButton (inv_seek0 (inv_pause h _) _) _ _
      · exact inv_seek0 (inv_pause h _) _

theorem stopOther_audioEnabled (s : State) (i : Nat) :
    (stopOther s i).audioEnabled = s.audioEnabled := by
  unfold stopOther
  split
  · rfl
  · split
    · rfl
    · simp only []
      split
      · unfold updatePlayPauseButton; split <;> rfl
      · rfl

theorem stopOther_n (s : State) (i : Nat) : (stopOther s i).n = s.n := by
  unfold stopOther
  split
  · rfl
  · split
    · rfl
    · simp only []
      split
      · unfold updatePlayPauseButton; split <;> rfl
      · rfl

theorem updatePlayPauseButton_audio (s : State) (k : Int) (b : Bool) :
    (updatePlayPauseButton s k b).audio = s.audio := by
  unfold updatePlayPauseButton; split <;> rfl

/-- Updating an element keeps a bound address bound. -/
theorem bound_modAudio {s : State} {i : Nat} (j : Nat) {f : Audio → Audio} (hf : KeepsSrc f)
    (ha : ∃ a, s.audio i = some a ∧ a.src = true) :
    ∃ a, (modAudio s j f).audio i = some a ∧ a.src = true := by
  obtain ⟨a, ha, hs⟩ := ha
  by_cases hij : i = j
  · subst hij
    exact ⟨f a, by simp [modAudio, setAt, ha], (hf a).2 hs⟩
  · exact ⟨a, by simp [modAudio, setAt, hij, ha], hs⟩

theorem bound_stopOther {s : State} {i : Nat} (j : Nat)
    (ha : ∃ a, s.audio i = some a ∧ a.src = true) :
    ∃ a, (stopOther s j).audio i = some a ∧ a.src = true := by
  unfold stopOther
  split
  · exact ha
  · split
    · exact ha
    · rename_i h _ _
      have h2 := bound_modAudio h keepsSrc_seek0 (bound_modAudio h keepsSrc_pause ha)
      simp only []
      split
      · rw [updatePlayPauseButton_audio]; exact h2
      · exact h2

theorem inv_togglePlay {s : State} (h : Inv s) (i : Nat) (k : Int) (hen : s.audioEnabled = true)
    (hi : i < s.n)
    (ha : ∃ a, s.audio i = some a ∧ a.src = true) :
    Inv (togglePlay s i k) := by
  unfold togglePlay
  have h1 := inv_stopOther h i
  have h2 : Inv { stopOther s i with currentAudio := some i } := by
    refine ⟨h1.timers_sub, h1.timers_fresh, h1.pending_fresh, ?_, ?_, h1.playing_sub⟩
    · intro c hc
      simp only [Option.some.injEq] at hc
      subst hc
      exact ⟨by rw [stopOther_n]; exact hi, bound_stopOther _ ha⟩
    · intro c _
      show (stopOther s i).audioEnabled = true
      rw [stopOther_audioEnabled]; exact hen
  exact inv_play (inv_seek0 h2 i) i _

theorem inv_rebind {s : State} (h : Inv s) (i : Nat) (a : Audio) : Inv (rebind s i a) := by
  unfold rebind
  split
  · exact inv_load (inv_assignSrc h i) i
  · exact h

theorem rebind_bound (s : State) (i : Nat) (a : Audio) (ha : s.audio i = some a) :
    ∃ b, (rebind s i a).audio i = some b ∧ b.src = true := by
  unfold rebind
  split
  · simp [load, assignSrc, modAudio, setAt, ha]
  · rename_i hb
    refine ⟨a, ha, ?_⟩
    cases hsrc : a.src <;> simp_all

theorem rebind_frame (s : State) (i : Nat) (a : Audio) :
    (rebind s i a).n = s.n ∧ (rebind s i a).audioEnabled = s.audioEnabled ∧
    (rebind s i a).currentAudio = s.currentAudio ∧ (rebind s i a).timers = s.timers ∧
    (rebind s i a).audioTimeout = s.audioTimeout ∧ (rebind s i a).pending = s.pending ∧
    (rebind s i a).nextAttempt = s.nextAttempt ∧
    (rebind s i a).userControlledAudio = s.userControlledAudio ∧
    (rebind s i a).hasButton = s.hasButton ∧ (rebind s i a).active = s.active ∧
    (rebind s i a).playing = s.playing := by
  unfold rebind
  split <;> simp [load, assignSrc, modAudio]

theorem inv_toggleBranch {s : State} (h : Inv s) (i : Nat) (k : Int)
    (hen : s.audioEnabled = true) (hi : i < s.n)
    (ha : ∃ a, s.audio i = some a ∧ a.src = true) :
    Inv (toggleBranch s i k) := by
  unfold toggleBranch
  split
  · exact inv_togglePause h i k
  · exact inv_togglePlay h i k hen hi ha

theorem inv_toggleUserPlayback {s : State} (h : Inv s) (idx : Option Int) :
    Inv (toggleUserPlayback s idx) := by
  unfold toggleUserPlayback
  have h1 : Inv { enableAudio s with userControlledAudio := true } :=
    inv_setUserControlled (inv_enableAudio h) true
  have hen : ({ enableAudio s with userControlledAudio := true } : State).audioEnabled = true :=
    enableAudio_audioEnabled s
  revert h1 hen
  generalize ({ enableAudio s with userControlledAudio := true } : State) = s1
  intro h1 hen
  simp only []
  split
  · exact h1
  · split
    · exact h1
    · rename_i k i hi
      have hin := (item?_eq_some hi).2.2.2
      split
      · exact h1
      · rename_i a ha
        split
        · exact h1
        · exact h1
        · refine inv_toggleBranch (inv_rebind h1 i a) i _ ?_ ?_ (rebind_bound _ i a ha)
          · rw [(rebind_frame _ i a).2.1]; exact hen
          · rw [(rebind_frame _ i a).1]; exact hin

theorem inv_removeTimer {s : State} (h : Inv s) (id : Nat) :
    Inv { s with timers := s.timers.filter (fun x => x.id ≠ id) } := by
  refine ⟨?_, ?_, h.pending_fresh, h.cur_bound, h.cur_enabled, h.playing_sub⟩
  · intro t hm
    exact h.timers_sub t (List.mem_of_mem_filter hm)
  · intro t hm
    exact h.timers_fresh t (List.mem_of_mem_filter hm)

theorem inv_removeAttempt {s : State} (h : Inv s) (id : Nat) :
    Inv { s with pending := s.pending.filter (fun x => x.id ≠ id) } := by
  refine ⟨h.timers_sub, h.timers_fresh, ?_, h.cur_bound, h.cur_enabled, h.playing_sub⟩
  intro p hm
  exact h.pending_fresh p (List.mem_of_mem_filter hm)

theorem inv_expire {s : State} (h : Inv s) (c : Nat) : Inv (expire s c) := by
  unfold expire
  split
  · exact inv_updatePlayPauseButton (inv_clearCurrent (inv_seek0 (inv_pause h c) c)) _ _
  · exact h

theorem inv_fireTimer {s : State} (h : Inv s) (id : Nat) : Inv (fireTimer s id) := by
  unfold fireTimer
  split
  · exact h
  · exact inv_expire (inv_removeTimer h id) _

theorem inv_runHandler {s : State} (h : Inv s) (p : Attempt) (ok : Bool) :
    Inv (runHandler s p ok) := by
  unfold runHandler
  split
  · exact inv_seek0 (inv_pause h _) _
  · exact h
  · exact inv_updatePlayPauseButton h _ _
  · exact inv_updatePlayPauseButton h _ _
  · exact inv_clearAudioTimeout (inv_updatePlayPauseButton h _ _)
  · have h1 := inv_updatePlayPauseButton h (by assumption) false
    exact inv_setUserControlled (inv_clearCurrent h1) false

theorem inv_settle {s : State} (h : Inv s) (id : Nat) (ok : Bool) : Inv (settle s id ok) := by
  unfold settle
  split
  · exact h
  · exact inv_runHandler (inv_removeAttempt h id) _ _

theorem inv_mediaListener {s : State} (h : Inv s) (i : Nat) (b : Bool) :
    Inv (mediaListener s i b) := by
  unfold mediaListener
  split
  · exact inv_updatePlayPauseButton h _ _
  · exact h

theorem inv_playbackEnded {s : State} (h : Inv s) (i : Nat) : Inv (playbackEnded s i) := by
  unfold playbackEnded
  split
  · exact inv_mediaListener (inv_modAudio h i (by intro a; simp)) _ _
  · exact h

theorem inv_elapse {s : State} (h : Inv s) (i dt : Nat) : Inv (elapse s i dt) := by
  unfold elapse
  split
  · exact inv_modAudio h i (by intro a; simp)
  · exact h

theorem inv_step {s : State} (h : Inv s) (e : Event) : Inv (step s e) := by
  cases e with
  | goNext => exact inv_goNext h
  | goPrevious => exact inv_goPrevious h
  | trackLink idx => exact inv_jumpIfValid h idx
  | menuLink idx => exact inv_jumpIfValid (inv_enableAudio h) idx
  | toggle idx => exact inv_toggleUserPlayback h idx
  | menuOpen => exact inv_stopAllAudio h
  | docClick => exact inv_enableAudio h
  | fire t => exact inv_fireTimer h t
  | settle a ok => exact inv_settle h a ok
  | mediaPlay i => exact inv_mediaListener h i true
  | mediaPause i => exact inv_mediaListener h i false
  | mediaEnded i => exact inv_playbackEnded h i
  | elapse i dt => exact inv_elapse h i dt

theorem inv_loaded (d : Dom) : Inv (loaded d) := by
  refine ⟨?_, ?_, ?_, ?_, ?_, ?_⟩ <;> simp [loaded]

theorem inv_init (d : Dom) : Inv (init d) :=
  inv_setSlider (inv_loaded d)

/-- Every reachable state satisfies the invariant. -/
theorem inv_of_reachable {d : Dom} {s : State} (h : Reachable d s) : Inv s := by
  induction h with
  | init => exact inv_init d
  | step e _ ih => exact inv_step ih e

theorem reachable_foldl (d : Dom) (l : List Event) :
    ∀ s : State, Reachable d s → Reachable d (l.foldl step s) := by
  induction l with
  | nil => intro s hs; exact hs
  | cons e l ih => intro s hs; exact ih _ (Reachable.step e hs)

theorem reachable_run (d : Dom) (evs : List Event) : Reachable d (run d evs) :=
  reachable_foldl d evs _ Reachable.init

/-- C1 (fails on the code): after the visit `overlapTrace` on `pageThree`, made of
navigation commands, play/pause toggles and settlements only, no play promise
is pending and the audio elements of items 1 and 2 are both not paused. -/
theorem c1_two_audio_not_paused_at_quiescence :
    Quiescent (run pageThree overlapTrace) ∧
    ¬ NoOverlap (run pageThree overlapTrace) ∧
    (run pageThree overlapTrace).currentAudio = some 1 ∧
    ((run pageThree overlapTrace).audio 1).map (fun a => a.paused) = some false ∧
    ((run pageThree overlapTrace).audio 2).map (fun a => a.paused) = some false := by
  refine ⟨by unfold Quiescent; decide, ?_, by decide, by decide, by decide⟩
  intro h
  have h12 := h 1 2
    { source := some true, src := true, srcIncl := true, addrIncl := true, paused := false, ended := false,
      currentTime := 0 }
    { source := some true, src := true, srcIncl := true, addrIncl := true, paused := false, ended := false,
      currentTime := 0 }
    (by decide) (by decide) (by decide) (by decide) rfl rfl
  exact absurd h12 (by decide)

theorem fireTimer_eq_of_userControlled (s : State) (id : Nat)
    (huc : s.userControlledAudio = true) :
    fireTimer s id = s ∨
      fireTimer s id = { s with timers := s.timers.filter (fun x => x.id ≠ id) } := by
  unfold fireTimer
  split
  · exact Or.inl rfl
  · right
    unfold expire
    simp [huc]

/-- C2 (fails on the code): on `pageThree`, after next (the snippet of item 1
starts and its timer is armed) and a click on a play/pause button whose
`data-slide` does not parse, `userControlledAudio` is true while `audioTimeout`
holds the armed timer. -/
theorem c2_user_controlled_with_armed_timer :
    (run pageThree [Event.goNext, Event.toggle none]).userControlledAudio = true ∧
    (run pageThree [Event.goNext, Event.toggle none]).audioTimeout = some 1 ∧
    (run pageThree [Event.goNext, Event.toggle none]).timers =
      [{ id := 1, audio := 1, delay := 60000 }] := by
  decide

/-- C2 (amended): in every reachable state in which `userControlledAudio` is
true a snippet timer is inert: when it fires, every audio element, the current
handle, `audioTimeout`, the flags, the affordances and the pending play promises
are as before.  And when the play promise of a play/pause toggle is fulfilled,
`audioTimeout` is null and no timer is armed. -/
theorem c2_timer_inert_under_user_control (d : Dom) (s : State) (hr : Reachable d s) :
    (s.userControlledAudio = true → ∀ id : Nat,
      (fireTimer s id).audio = s.audio ∧
      (fireTimer s id).currentAudio = s.currentAudio ∧
      (fireTimer s id).audioTimeout = s.audioTimeout ∧
      (fireTimer s id).userControlledAudio = true ∧
      (fireTimer s id).audioEnabled = s.audioEnabled ∧
      (fireTimer s id).active = s.active ∧
      (fireTimer s id).playing = s.playing ∧
      (fireTimer s id).pending = s.pending) ∧
    (∀ (id : Nat) (p : Attempt) (k : Int),
      s.pending.find? (fun q => q.id = id) = some p → p.handler = Handler.toggle k →
      (settle s id true).audioTimeout = none ∧ (settle s id true).timers = []) := by
  constructor
  · intro huc id
    rcases fireTimer_eq_of_userControlled s id huc with h | h <;> rw [h] <;> simp [huc]
  · intro id p k hp hk
    have hinv := inv_of_reachable hr
    have h1 : Inv (updatePlayPauseButton
        { s with pending := s.pending.filter (fun x => x.id ≠ id) } k true) :=
      inv_updatePlayPauseButton (inv_removeAttempt hinv id) k true
    have hs : settle s id true = clearAudioTimeout (updatePlayPauseButton
        { s with pending := s.pending.filter (fun x => x.id ≠ id) } k true) := by
      unfold settle
      rw [hp]
      simp only [runHandler, hk]
    rw [hs]
    exact ⟨clearAudioTimeout_audioTimeout _, clearAudioTimeout_timers h1⟩

/-- Witness of C2 (amended) on `pageThree` after next, a toggle on item 2 and
nothing else: the flag is set, the timer of item 1's snippet is still armed. -/
theorem c2_timer_inert_witness :
    Reachable pageThree (run pageThree [Event.goNext, Event.toggle (some 2)]) ∧
    (run pageThree [Event.goNext, Event.toggle (some 2)]).userControlledAudio = true ∧
    (run pageThree [Event.goNext, Event.toggle (some 2)]).timers =
      [{ id := 1, audio := 1, delay := 60000 }] ∧
    (fireTimer (run pageThree [Event.goNext, Event.toggle (some 2)]) 1).currentAudio = some 2 ∧
    (settle (run pageThree [Event.goNext, Event.toggle (some 2)]) 1 true).timers = [] :=
  ⟨reachable_run _ _, by decide, by decide,
    (((c2_timer_inert_under_user_control pageThree _ (reachable_run _ _)).1 (by decide) 1).2.1).trans
      (by decide),
    ((c2_timer_inert_under_user_control pageThree _ (reachable_run _ _)).2 1
      { id := 1, audio := 2, handler := Handler.toggle 2 } 2 (by decide) rfl).2⟩

theorem stopAllAudio_currentAudio (s : State) : (stopAllAudio s).currentAudio = none := by
  unfold stopAllAudio resetAllPlayPauseButtons clearAudioTimeout
  cases hc : s.currentAudio <;> simp only [] <;> split <;> simp_all

theorem stopAllAudio_audioTimeout (s : State) : (stopAllAudio s).audioTimeout = none := by
  unfold stopAllAudio resetAllPlayPauseButtons
  exact clearAudioTimeout_audioTimeout _

theorem stopAllAudio_playing (s : State) (k : Int) : (stopAllAudio s).playing k = false := rfl

theorem clearAudioTimeout_audio (s : State) : (clearAudioTimeout s).audio = s.audio := by
  unfold clearAudioTimeout; split <;> rfl

theorem stopAllAudio_audio_current (s : State) (h : Nat) (a : Audio)
    (hc : s.currentAudio = some h) (ha : s.audio h = some a) :
    (stopAllAudio s).audio h = some { a with paused := true, currentTime := 0, ended := false } := by
  unfold stopAllAudio resetAllPlayPauseButtons
  simp only [hc, clearAudioTimeout_audio]
  simp [seek0, pause, modAudio, setAt, ha]

theorem stopAllAudio_audio_other (s : State) (j : Nat)
    (hc : s.currentAudio ≠ some j) : (stopAllAudio s).audio j = s.audio j := by
  unfold stopAllAudio resetAllPlayPauseButtons
  simp only [clearAudioTimeout_audio]
  split
  · rename_i h hh
    have : j ≠ h := by rintro rfl; exact hc hh
    simp [seek0, pause, modAudio, setAt, this]
  · rfl

theorem stopAllAudio_frame (s : State) :
    (stopAllAudio s).n = s.n ∧ (stopAllAudio s).active = s.active ∧
    (stopAllAudio s).audioEnabled = s.audioEnabled ∧
    (stopAllAudio s).userControlledAudio = s.userControlledAudio ∧
    (stopAllAudio s).pending = s.pending ∧ (stopAllAudio s).nextAttempt = s.nextAttempt ∧
    (stopAllAudio s).nextTimer = s.nextTimer ∧ (stopAllAudio s).hasButton = s.hasButton ∧
    (stopAllAudio s).mark = s.mark := by
  unfold stopAllAudio resetAllPlayPauseButtons clearAudioTimeout
  cases hc : s.currentAudio <;> simp only [] <;> split <;> simp_all [seek0, pause, modAudio]

theorem find?_append_fresh (l : List Attempt) (p : Attempt) (hl : ∀ q ∈ l, q.id < p.id) :
    (l ++ [p]).find? (fun q => q.id = p.id) = some p := by
  induction l with
  | nil => simp
  | cons x xs ih =>
    have hx : x.id ≠ p.id := by
      have := hl x (by simp)
      omega
    simp only [List.cons_append, List.find?_cons, hx, decide_False]
    exact ih (fun q hq => hl q (by simp [hq]))

theorem filter_append_fresh (l : List Attempt) (p : Attempt) (hl : ∀ q ∈ l, q.id < p.id) :
    (l ++ [p]).filter (fun x => x.id ≠ p.id) = l := by
  have h1 : l.filter (fun x => x.id ≠ p.id) = l := by
    rw [List.filter_eq_self]
    intro q hq
    have := hl q hq
    simp; omega
  rw [List.filter_append, h1]
  simp

theorem playAudioSnippet_eq (s : State) (i : Nat) (a : Audio)
    (huc : s.userControlledAudio = false) (hen : s.audioEnabled = true)
    (hi : item? s s.active = some i) (ha : s.audio i = some a) (hsrc : a.source = some true) :
    playAudioSnippet s = startSnippet (assignSrc (stopAllAudio s) i) i := by
  obtain ⟨hn, hact, hen1, _, _, _, _, _, _⟩ := stopAllAudio_frame s
  have hi1 : item? (stopAllAudio s) (stopAllAudio s).active = some i := by
    unfold item? at hi ⊢
    rw [hn, hact]; exact hi
  have ha1 : ∃ b, (stopAllAudio s).audio i = some b ∧ b.source = some true := by
    by_cases hc : s.currentAudio = some i
    · exact ⟨_, stopAllAudio_audio_current s i a hc ha, hsrc⟩
    · exact ⟨a, by rw [stopAllAudio_audio_other s i hc]; exact ha, hsrc⟩
  obtain ⟨b, hb, hbs⟩ := ha1
  have hset : srcSet (assignSrc (stopAllAudio s) i) i = true := by
    simp [srcSet, assignSrc, modAudio, setAt, hb]
  unfold playAudioSnippet
  simp only [huc, hen1, hen, hi1, hb, hbs, hset, if_true, Bool.false_eq_true, if_false,
    Bool.not_true]

theorem startSnippet_fields (s : State) (i : Nat) :
    (startSnippet s i).currentAudio = some i ∧
    (startSnippet s i).audioTimeout = some s.nextTimer ∧
    (startSnippet s i).timers =
      { id := s.nextTimer, audio := i, delay := SNIPPET_DURATION } :: s.timers ∧
    (startSnippet s i).pending =
      s.pending ++ [{ id := s.nextAttempt, audio := i, handler := Handler.snippet }] ∧
    (startSnippet s i).playing = s.playing ∧
    (startSnippet s i).active = s.active ∧
    (startSnippet s i).hasButton = s.hasButton ∧
    (startSnippet s i).userControlledAudio = s.userControlledAudio ∧
    (∀ j, j ≠ i → (startSnippet s i).audio j = s.audio j) ∧
    (startSnippet s i).audio i = (s.audio i).map (fun a =>
      { a with paused := false, ended := false, currentTime := 0 }) := by
  refine ⟨rfl, rfl, rfl, rfl, rfl, rfl, rfl, rfl, ?_, ?_⟩
  · intro j hj
    simp [startSnippet, play, load, seek0, modAudio, setAt, hj]
  · cases ha : s.audio i <;> simp [startSnippet, play, load, seek0, modAudio, setAt, ha]

/-- C3: in a state that satisfies the invariant of the reachable states (as do
the states in which `setSlider` makes the call), with `userControlledAudio`
false, audio unlocked and an active item in range whose audio has a source
address,
`playAudioSnippet` first stops (`stopAllAudio`) and then starts: the audio that
was current is rewound and, unless it is the active item's own, paused; every
timer that was armed is cancelled; every affordance is not playing; the active
item's audio is the current handle, at time 0, with a play promise pending.
Once that promise is fulfilled the one armed timer is the 60000 ms timer of
that handle and the active item's button, when the page has one, is playing. -/
theorem c3_playAudioSnippet_effect (s : State) (i : Nat) (a : Audio)
    (hinv : Inv s) (huc : s.userControlledAudio = false) (hen : s.audioEnabled = true)
    (hi : item? s s.active = some i) (ha : s.audio i = some a) (hsrc : a.source = some true) :
    playAudioSnippet s = startSnippet (assignSrc (stopAllAudio s) i) i ∧
    (∀ h, s.currentAudio = some h → ∃ b, (playAudioSnippet s).audio h = some b ∧
      b.currentTime = 0 ∧ (h ≠ i → b.paused = true)) ∧
    (∀ t ∈ s.timers, t ∉ (playAudioSnippet s).timers) ∧
    (∀ k, (playAudioSnippet s).playing k = false) ∧
    (playAudioSnippet s).currentAudio = some i ∧
    (∃ b, (playAudioSnippet s).audio i = some b ∧ b.currentTime = 0 ∧ b.paused = false) ∧
    (playAudioSnippet s).pending =
      s.pending ++ [{ id := s.nextAttempt, audio := i, handler := Handler.snippet }] ∧
    (settle (playAudioSnippet s) s.nextAttempt true).currentAudio = some i ∧
    (settle (playAudioSnippet s) s.nextAttempt true).timers =
      [{ id := s.nextTimer, audio := i, delay := 60000 }] ∧
    (settle (playAudioSnippet s) s.nextAttempt true).audioTimeout = some s.nextTimer ∧
    (s.hasButton s.active = true →
      (settle (playAudioSnippet s) s.nextAttempt true).playing s.active = true) := by
  have heq := playAudioSnippet_eq s i a huc hen hi ha hsrc
  obtain ⟨hn, hact, hen1, huc1, hpend, hna, hnt, hhb, _⟩ := stopAllAudio_frame s
  obtain ⟨f1, f2, f3, f4, f5, f6, f7, f8, f9, f10⟩ :=
    startSnippet_fields (assignSrc (stopAllAudio s) i) i
  have ht0 : (assignSrc (stopAllAudio s) i).timers = [] := stopAllAudio_timers hinv
  have hpend' : (playAudioSnippet s).pending =
      s.pending ++ [{ id := s.nextAttempt, audio := i, handler := Handler.snippet }] := by
    have e1 : (assignSrc (stopAllAudio s) i).pending = s.pending := hpend
    have e2 : (assignSrc (stopAllAudio s) i).nextAttempt = s.nextAttempt := hna
    rw [heq, f4, e1, e2]
  have htim : (playAudioSnippet s).timers =
      [{ id := s.nextTimer, audio := i, delay := 60000 }] := by
    have e1 : (assignSrc (stopAllAudio s) i).nextTimer = s.nextTimer := hnt
    rw [heq, f3, ht0, e1]; rfl
  have hfresh : ∀ q ∈ s.pending,
      q.id < ({ id := s.nextAttempt, audio := i, handler := Handler.snippet } : Attempt).id :=
    fun q hq => hinv.pending_fresh q hq
  have hsettle : settle (playAudioSnippet s) s.nextAttempt true =
      updatePlayPauseButton { playAudioSnippet s with pending := s.pending }
        (playAudioSnippet s).active true := by
    unfold settle
    rw [hpend']
    have h1 := find?_append_fresh s.pending
      { id := s.nextAttempt, audio := i, handler := Handler.snippet } hfresh
    have h2 := filter_append_fresh s.pending
      { id := s.nextAttempt, audio := i, handler := Handler.snippet } hfresh
    simp only [] at h1 h2
    rw [h1]
    simp only [h2, runHandler]
  have hact' : (playAudioSnippet s).active = s.active := by
    rw [heq, f6]; exact hact
  have hhb' : (playAudioSnippet s).hasButton = s.hasButton := by
    rw [heq, f7]; exact hhb
  refine ⟨heq, ?_, ?_, ?_, ?_, ?_, hpend', ?_, ?_, ?_, ?_⟩
  · intro h hc
    obtain ⟨_, b, hb, _⟩ := hinv.cur_bound h hc
    by_cases hhi : h = i
    · subst hhi
      rw [heq, f10]
      have := stopAllAudio_audio_current s h b hc hb
      refine ⟨_, by simp [assignSrc, modAudio, setAt, this]; rfl, rfl, fun h0 => absurd rfl h0⟩
    · rw [heq, f9 h hhi]
      have := stopAllAudio_audio_current s h b hc hb
      exact ⟨_, by simp [assignSrc, modAudio, setAt, hhi, this]; rfl, rfl, fun _ => rfl⟩
  · intro t ht hmem
    rw [htim, List.mem_singleton] at hmem
    have := hinv.timers_fresh t ht
    rw [hmem] at this
    simp at this
  · intro k
    rw [heq, f5]; rfl
  · rw [heq, f1]
  · rw [heq, f10]
    have hex : ∃ b, (stopAllAudio s).audio i = some b := by
      by_cases hc : s.currentAudio = some i
      · exact ⟨_, stopAllAudio_audio_current s i a hc ha⟩
      · exact ⟨a, by rw [stopAllAudio_audio_other s i hc]; exact ha⟩
    obtain ⟨b, hb⟩ := hex
    exact ⟨_, by simp [assignSrc, modAudio, setAt, hb]; rfl, rfl, rfl⟩
  · rw [hsettle]
    unfold updatePlayPauseButton
    split
    · show (playAudioSnippet s).currentAudio = some i
      rw [heq, f1]
    · show (playAudioSnippet s).currentAudio = some i
      rw [heq, f1]
  · rw [hsettle]
    unfold updatePlayPauseButton
    split <;> exact htim
  · rw [hsettle]
    unfold updatePlayPauseButton
    split
    · show (playAudioSnippet s).audioTimeout = some s.nextTimer
      rw [heq, f2]; exact congrArg some hnt
    · show (playAudioSnippet s).audioTimeout = some s.nextTimer
      rw [heq, f2]; exact congrArg some hnt
  · intro hb
    rw [hsettle, hact']
    unfold updatePlayPauseButton
    have hb2 : (playAudioSnippet s).hasButton s.active = true := by
      rw [hhb']; exact hb
    simp only [hb2, if_true, setAt]

/-- Witness of C3: on `pageThree`, item 1 is active and the audio of item 2 is
current and playing under user control; the state is the one in which a
navigation to item 1 makes the call (flag cleared). -/
theorem c3_playAudioSnippet_witness :
    Inv snippetCallState ∧
    snippetCallState.userControlledAudio = false ∧ snippetCallState.audioEnabled = true ∧
    item? snippetCallState snippetCallState.active = some 1 ∧
    snippetCallState.currentAudio = some 2 ∧
    snippetCallState.timers = [{ id := 1, audio := 1, delay := 60000 }] ∧
    ((playAudioSnippet snippetCallState).audio 2).map (fun b => (b.paused, b.currentTime))
      = some (true, 0) ∧
    (playAudioSnippet snippetCallState).currentAudio = some 1 ∧
    (settle (playAudioSnippet snippetCallState) snippetCallState.nextAttempt true).timers =
      [{ id := 2, audio := 1, delay := 60000 }] ∧
    (settle (playAudioSnippet snippetCallState) snippetCallState.nextAttempt true).playing 1
      = true :=
  have h := c3_playAudioSnippet_effect snippetCallState 1
    { source := some true, src := true, srcIncl := true, addrIncl := true, paused := true, ended := false,
      currentTime := 0 }
    (inv_setUserControlled (inv_of_reachable (reachable_run _ _)) false)
    (by decide) (by decide) (by decide) (by decide) (by decide)
  ⟨inv_setUserControlled (inv_of_reachable (reachable_run _ _)) false, by decide, by decide,
    by decide, by decide, by decide, by decide, h.2.2.2.2.1, h.2.2.2.2.2.2.2.2.1,
    h.2.2.2.2.2.2.2.2.2.2 (by decide)⟩

theorem frame_refl (s : State) : Frame s s :=
  ⟨rfl, rfl, fun _ h => h⟩

theorem frame_trans {s t u : State} (h1 : Frame s t) (h2 : Frame t u) : Frame s u :=
  ⟨h2.1.trans h1.1, h2.2.1.trans h1.2.1, fun x hx => h1.2.2 x (h2.2.2 x hx)⟩

theorem frame_modAudio (s : State) (i : Nat) (f : Audio → Audio) : Frame s (modAudio s i f) :=
  ⟨rfl, rfl, fun _ h => h⟩

theorem frame_play (s : State) (i : Nat) (h : Handler) : Frame s (play s i h) :=
  ⟨rfl, rfl, fun _ h => h⟩

theorem frame_updatePlayPauseButton (s : State) (k : Int) (b : Bool) :
    Frame s (updatePlayPauseButton s k b) := by
  unfold updatePlayPauseButton
  split
  · exact ⟨rfl, rfl, fun _ h => h⟩
  · exact frame_refl s

theorem frame_clearAudioTimeout (s : State) : Frame s (clearAudioTimeout s) := by
  unfold clearAudioTimeout
  split
  · exact ⟨rfl, rfl, fun _ h => List.mem_of_mem_filter h⟩
  · exact frame_refl s

theorem frame_stopAllAudio (s : State) : Frame s (stopAllAudio s) := by
  unfold stopAllAudio
  have h1 : ∀ u : State, Frame u (resetAllPlayPauseButtons (clearAudioTimeout u)) := fun u =>
    frame_trans (frame_clearAudioTimeout u) ⟨rfl, rfl, fun _ h => h⟩
  refine frame_trans ?_ (h1 _)
  split
  · exact ⟨rfl, rfl, fun _ h => h⟩
  · exact frame_refl s

theorem frame_enableAudio (s : State) : Frame s (enableAudio s) := by
  unfold enableAudio
  split
  · exact frame_refl s
  · simp only []
    split
    · exact ⟨rfl, rfl, fun _ h => h⟩
    · split
      · exact ⟨rfl, rfl, fun _ h => h⟩
      · split <;> exact ⟨rfl, rfl, fun _ h => h⟩

theorem frame_togglePause (s : State) (i : Nat) (k : Int) : Frame s (togglePause s i k) := by
  unfold togglePause
  have h1 : Frame s (clearAudioTimeout (pause s i)) :=
    frame_trans (frame_modAudio s i _) (frame_clearAudioTimeout _)
  have h2 : Frame s (if (clearAudioTimeout (pause s i)).currentAudio = some i then
      { clearAudioTimeout (pause s i) with currentAudio := none }
      else clearAudioTimeout (pause s i)) := by
    split
    · exact frame_trans h1 ⟨rfl, rfl, fun _ h => h⟩
    · exact h1
  exact frame_trans (frame_trans h2 (frame_updatePlayPauseButton _ k false))
    ⟨rfl, rfl, fun _ h => h⟩

theorem frame_stopOther (s : State) (i : Nat) : Frame s (stopOther s i) := by
  unfold stopOther
  split
  · exact frame_refl s
  · split
    · exact frame_refl s
    · simp only []
      split
      · exact frame_trans ⟨rfl, rfl, fun _ h => h⟩ (frame_updatePlayPauseButton _ _ _)
      · exact ⟨rfl, rfl, fun _ h => h⟩

theorem frame_togglePlay (s : State) (i : Nat) (k : Int) : Frame s (togglePlay s i k) := by
  unfold togglePlay
  exact frame_trans (frame_stopOther s i) ⟨rfl, rfl, fun _ h => h⟩

theorem frame_toggleBranch (s : State) (i : Nat) (k : Int) : Frame s (toggleBranch s i k) := by
  unfold toggleBranch
  split
  · exact frame_togglePause _ _ _
  · exact frame_togglePlay _ _ _

theorem frame_rebind (s : State) (i : Nat) (a : Audio) : Frame s (rebind s i a) := by
  unfold rebind
  split
  · exact ⟨rfl, rfl, fun _ h => h⟩
  · exact frame_refl s

theorem frame_toggleUserPlayback (s : State) (idx : Option Int) :
    Frame s (toggleUserPlayback s idx) := by
  unfold toggleUserPlayback
  have h1 : Frame s { enableAudio s with userControlledAudio := true } :=
    frame_trans (frame_enableAudio s) ⟨rfl, rfl, fun _ h => h⟩
  revert h1
  generalize ({ enableAudio s with userControlledAudio := true } : State) = s1
  intro h1
  simp only []
  split
  · exact h1
  · split
    · exact h1
    · split
      · exact h1
      · split
        · exact h1
        · exact h1
        · exact frame_trans h1 (frame_trans (frame_rebind s1 _ _) (frame_toggleBranch _ _ _))

theorem frame_removeTimer (s : State) (id : Nat) :
    Frame s { s with timers := s.timers.filter (fun x => x.id ≠ id) } := by
  refine ⟨rfl, rfl, ?_⟩
  intro x hx
  exact List.mem_of_mem_filter hx

theorem frame_expire (s : State) (h : Nat) : Frame s (expire s h) := by
  unfold expire
  split
  · exact frame_trans ⟨rfl, rfl, fun _ h => h⟩ (frame_updatePlayPauseButton _ _ _)
  · exact frame_refl s

theorem frame_fireTimer (s : State) (id : Nat) : Frame s (fireTimer s id) := by
  unfold fireTimer
  split
  · exact frame_refl s
  · exact frame_trans (frame_removeTimer s id) (frame_expire _ _)

theorem frame_runHandler (s : State) (p : Attempt) (ok : Bool) : Frame s (runHandler s p ok) := by
  unfold runHandler
  split
  · exact ⟨rfl, rfl, fun _ h => h⟩
  · exact frame_refl s
  · exact frame_updatePlayPauseButton _ _ _
  · exact frame_updatePlayPauseButton _ _ _
  · exact frame_trans (frame_updatePlayPauseButton _ _ _) (frame_clearAudioTimeout _)
  · exact frame_trans (frame_updatePlayPauseButton _ _ _) ⟨rfl, rfl, fun _ h => h⟩

theorem frame_settle (s : State) (id : Nat) (ok : Bool) : Frame s (settle s id ok) := by
  unfold settle
  split
  · exact frame_refl s
  · exact frame_trans ⟨rfl, rfl, fun _ h => h⟩ (frame_runHandler _ _ _)

theorem frame_mediaListener (s : State) (i : Nat) (b : Bool) : Frame s (mediaListener s i b) := by
  unfold mediaListener
  split
  · exact frame_updatePlayPauseButton _ _ _
  · exact frame_refl s

theorem frame_playbackEnded (s : State) (i : Nat) : Frame s (playbackEnded s i) := by
  unfold playbackEnded
  split
  · exact frame_trans (frame_modAudio s i _) (frame_mediaListener _ _ _)
  · exact frame_refl s

theorem frame_elapse (s : State) (i dt : Nat) : Frame s (elapse s i dt) := by
  unfold elapse
  split
  · exact frame_modAudio s i _
  · exact frame_refl s

theorem timerOfActive_of_frame {s t : State} (h : TimerOfActive s) (hf : Frame s t) :
    TimerOfActive t := by
  intro x hx i hi
  have hi2 : item? s s.active = some i := by
    unfold item? at hi ⊢
    rw [← hf.1, ← hf.2.1]; exact hi
  exact h x (hf.2.2 x hx) i hi2

theorem timerOfActive_of_timers_nil {s : State} (h : s.timers = []) : TimerOfActive s := by
  intro t ht
  rw [h] at ht
  simp at ht

theorem timerOfActive_playAudioSnippet {s : State} (hinv : Inv s)
    (huc : s.userControlledAudio = false) : TimerOfActive (playAudioSnippet s) := by
  have ht := stopAllAudio_timers hinv
  obtain ⟨hn, hact, _⟩ := stopAllAudio_frame s
  unfold playAudioSnippet
  simp only [huc, Bool.false_eq_true, if_false]
  split
  · exact timerOfActive_of_timers_nil ht
  · split
    · exact timerOfActive_of_timers_nil ht
    · rename_i i hi
      split
      · exact timerOfActive_of_timers_nil ht
      · have key : ∀ s2 : State, s2.timers = [] → s2.n = (stopAllAudio s).n →
            s2.active = (stopAllAudio s).active →
            TimerOfActive (if srcSet s2 i = true then startSnippet s2 i else s2) := by
          intro s2 h2 hn2 ha2
          split
          · intro t hm j hj
            have hm2 : t ∈ [({ id := s2.nextTimer, audio := i, delay := SNIPPET_DURATION } : Timer)] := by
              have : (startSnippet s2 i).timers =
                  { id := s2.nextTimer, audio := i, delay := SNIPPET_DURATION } :: s2.timers := rfl
              rw [this, h2] at hm
              exact hm
            rw [List.mem_singleton] at hm2
            have hj2 : item? (stopAllAudio s) (stopAllAudio s).active = some j := by
              unfold item? at hj ⊢
              rw [← hn2, ← ha2]; exact hj
            rw [hi] at hj2
            rw [hm2]
            exact Option.some.inj hj2
          · exact timerOfActive_of_timers_nil h2
        split
        · exact key _ ht rfl rfl
        · exact key _ ht rfl rfl

theorem timerOfActive_setSlider {s : State} (hinv : Inv s) : TimerOfActive (setSlider s) := by
  unfold setSlider
  have h1 : Inv (match oldActive s with
      | some j => { s with mark := setAt s.mark j false }
      | none => s) := by
    split
    · exact ⟨hinv.timers_sub, hinv.timers_fresh, hinv.pending_fresh, hinv.cur_bound,
        hinv.cur_enabled, hinv.playing_sub⟩
    · exact hinv
  revert h1
  generalize (match oldActive s with
      | some j => { s with mark := setAt s.mark j false }
      | none => s) = s1
  intro h1
  simp only []
  split
  · rename_i hnone
    intro t _ i hi
    rw [hnone] at hi
    simp at hi
  · apply timerOfActive_playAudioSnippet
    · split <;> split <;>
        exact ⟨h1.timers_sub, h1.timers_fresh, h1.pending_fresh, h1.cur_bound, h1.cur_enabled,
          h1.playing_sub⟩
    · rfl

theorem timerOfActive_jumpIfValid {s : State} (hinv : Inv s) (h : TimerOfActive s)
    (idx : Option Int) : TimerOfActive (jumpIfValid s idx) := by
  unfold jumpIfValid
  split
  · exact h
  · split
    · exact timerOfActive_setSlider (inv_setActive hinv _)
    · exact h

theorem timerOfActive_step {s : State} (hinv : Inv s) (h : TimerOfActive s) (e : Event) :
    TimerOfActive (step s e) := by
  cases e with
  | goNext => exact timerOfActive_setSlider (inv_setActive (inv_enableAudio hinv) _)
  | goPrevious => exact timerOfActive_setSlider (inv_setActive (inv_enableAudio hinv) _)
  | trackLink idx => exact timerOfActive_jumpIfValid hinv h idx
  | menuLink idx =>
    exact timerOfActive_jumpIfValid (inv_enableAudio hinv)
      (timerOfActive_of_frame h (frame_enableAudio s)) idx
  | toggle idx => exact timerOfActive_of_frame h (frame_toggleUserPlayback s idx)
  | menuOpen => exact timerOfActive_of_frame h (frame_stopAllAudio s)
  | docClick => exact timerOfActive_of_frame h (frame_enableAudio s)
  | fire t => exact timerOfActive_of_frame h (frame_fireTimer s t)
  | settle a ok => exact timerOfActive_of_frame h (frame_settle s a ok)
  | mediaPlay i => exact timerOfActive_of_frame h (frame_mediaListener s i true)
  | mediaPause i => exact timerOfActive_of_frame h (frame_mediaListener s i false)
  | mediaEnded i => exact timerOfActive_of_frame h (frame_playbackEnded s i)
  | elapse i dt => exact timerOfActive_of_frame h (frame_elapse s i dt)

/-- In every reachable state an armed timer belongs to the active item. -/
theorem timerOfActive_of_reachable {d : Dom} {s : State} (h : Reachable d s) :
    TimerOfActive s := by
  induction h with
  | init => exact timerOfActive_setSlider (inv_loaded d)
  | step e hr ih => exact timerOfActive_step (inv_of_reachable hr) ih e

theorem updatePlayPauseButton_playing_false {s : State} (hinv : Inv s) (k : Int) :
    (updatePlayPauseButton s k false).playing k = false := by
  unfold updatePlayPauseButton
  split
  · simp [setAt]
  · rename_i hb
    cases hp : s.playing k
    · rfl
    · exact absurd (hinv.playing_sub k hp) hb

/-- C4: let the armed timer `id`, whose callback captured the audio `t.audio`,
fire in a reachable state.  If that audio is still the current handle and
`userControlledAudio` is false, then it is paused and rewound to 0 and
`currentAudio` becomes null.  The affordance of the item that owns the audio is
set to not playing: by the callback itself (line 137, which names `active`)
whenever the active index is in range, the active item then being the owner,
and in every case by the script's listener of lines 180-182 once the `pause`
event of the callback's `pause()` reaches it, which changes no audio element
and leaves the handle null.  Otherwise the expiry changes no audio element,
handle, flag or affordance. -/
theorem c4_timer_expiry (d : Dom) (s : State) (id : Nat) (t : Timer) (hr : Reachable d s)
    (ht : s.timers.find? (fun x => x.id = id) = some t) :
    (s.currentAudio = some t.audio ∧ s.userControlledAudio = false →
      (∃ b, (fireTimer s id).audio t.audio = some b ∧ b.paused = true ∧ b.currentTime = 0) ∧
      (fireTimer s id).currentAudio = none ∧
      (fireTimer s id).playing s.active = false ∧
      (∀ i, item? s s.active = some i →
        i = t.audio ∧ (fireTimer s id).playing (t.audio : Int) = false) ∧
      (step (fireTimer s id) (Event.mediaPause t.audio)).playing (t.audio : Int) = false ∧
      (step (fireTimer s id) (Event.mediaPause t.audio)).audio = (fireTimer s id).audio ∧
      (step (fireTimer s id) (Event.mediaPause t.audio)).currentAudio = none) ∧
    (¬ (s.currentAudio = some t.audio ∧ s.userControlledAudio = false) →
      (fireTimer s id).audio = s.audio ∧
      (fireTimer s id).currentAudio = s.currentAudio ∧
      (fireTimer s id).audioTimeout = s.audioTimeout ∧
      (fireTimer s id).userControlledAudio = s.userControlledAudio ∧
      (fireTimer s id).playing = s.playing) := by
  have hinv := inv_of_reachable hr
  have hta := timerOfActive_of_reachable hr
  have hmem : t ∈ s.timers := List.mem_of_find?_eq_some ht
  have hfire : fireTimer s id =
      expire { s with timers := s.timers.filter (fun x => x.id ≠ id) } t.audio := by
    unfold fireTimer
    rw [ht]
  constructor
  · rintro ⟨hc, huc⟩
    obtain ⟨hlt, a, ha, _⟩ := hinv.cur_bound t.audio hc
    have hexp : fireTimer s id = updatePlayPauseButton
        { seek0 (pause { s with timers := s.timers.filter (fun x => x.id ≠ id) } t.audio) t.audio
          with currentAudio := none } s.active false := by
      rw [hfire]
      unfold expire
      simp only [hc, huc, and_self, if_true]
    have hinv2 : Inv { seek0 (pause { s with timers := s.timers.filter (fun x => x.id ≠ id) }
        t.audio) t.audio with currentAudio := none } :=
      inv_clearCurrent (inv_seek0 (inv_pause (inv_removeTimer hinv id) _) _)
    have hplay : (fireTimer s id).playing s.active = false := by
      rw [hexp]
      exact updatePlayPauseButton_playing_false hinv2 s.active
    have haud : (fireTimer s id).audio t.audio =
        some { a with paused := true, currentTime := 0, ended := false } := by
      rw [hexp, updatePlayPauseButton_audio]
      simp [seek0, pause, modAudio, setAt, ha]
    have hcur : (fireTimer s id).currentAudio = none := by
      rw [hexp]
      unfold updatePlayPauseButton
      split <;> rfl
    have hn : (fireTimer s id).n = s.n := (frame_fireTimer s id).1
    have hlisten : step (fireTimer s id) (Event.mediaPause t.audio) =
        updatePlayPauseButton (fireTimer s id) (t.audio : Int) false := by
      show mediaListener (fireTimer s id) t.audio false = _
      unfold mediaListener
      rw [if_pos]
      exact ⟨by rw [hn]; exact hlt, by rw [haud]; rfl⟩
    refine ⟨⟨_, haud, rfl, rfl⟩, hcur, hplay, ?_, ?_, ?_, ?_⟩
    · intro i hi
      have h1 := hta t hmem i hi
      have h2 := (item?_eq_some hi).2.2.1
      refine ⟨h1.symm, ?_⟩
      rw [h1, h2]
      exact hplay
    · rw [hlisten]
      exact updatePlayPauseButton_playing_false (inv_fireTimer hinv id) _
    · rw [hlisten]
      exact updatePlayPauseButton_audio _ _ _
    · rw [hlisten]
      unfold updatePlayPauseButton
      split <;> exact hcur
  · intro hn
    have hexp : fireTimer s id = { s with timers := s.timers.filter (fun x => x.id ≠ id) } := by
      rw [hfire]
      unfold expire
      rw [if_neg hn]
    rw [hexp]
    exact ⟨rfl, rfl, rfl, rfl, rfl⟩

/-- Witness of C4: on `pageThree` after `pastTheEndTrace` the timer of item 2's
snippet is armed, its audio is current and playing, and `active` is 3.  The
timer fires: the audio is paused and rewound and the handle cleared, and with
the `pause` event the button of item 2 stops showing playing. -/
theorem c4_timer_expiry_witness :
    Reachable pageThree (run pageThree pastTheEndTrace) ∧
    (run pageThree pastTheEndTrace).timers.find? (fun x => x.id = 2)
      = some { id := 2, audio := 2, delay := 60000 } ∧
    (run pageThree pastTheEndTrace).active = 3 ∧
    (run pageThree pastTheEndTrace).playing 2 = true ∧
    ((fireTimer (run pageThree pastTheEndTrace) 2).audio 2).map
      (fun b => (b.paused, b.currentTime)) = some (true, 0) ∧
    (fireTimer (run pageThree pastTheEndTrace) 2).currentAudio = none ∧
    (step (fireTimer (run pageThree pastTheEndTrace) 2) (Event.mediaPause 2)).playing 2
      = false :=
  have h := (c4_timer_expiry pageThree (run pageThree pastTheEndTrace) 2
    { id := 2, audio := 2, delay := 60000 } (reachable_run _ _) (by decide)).1 (by decide)
  ⟨reachable_run _ _, by decide, by decide, by decide, by decide, h.2.1, h.2.2.2.2.1⟩

/-- C5 (fails on the code): on `pageThree` after `staleTrace` the play promise 1,
started by the button of item 1 for that item's audio, is pending while the
current handle is the audio of item 2.  When promise 1 is rejected its handler
is not discarded: it sets `currentAudio` to null. -/
theorem c5_stale_rejection_clears_handle :
    (run pageThree staleTrace).pending =
      [{ id := 1, audio := 1, handler := Handler.toggle 1 },
       { id := 2, audio := 2, handler := Handler.snippet }] ∧
    (run pageThree staleTrace).currentAudio = some 2 ∧
    ((run pageThree staleTrace).audio 2).map (fun b => b.paused) = some false ∧
    (settle (run pageThree staleTrace) 1 false).currentAudio = none ∧
    ((settle (run pageThree staleTrace) 1 false).audio 2).map (fun b => b.paused) = some false := by
  decide

theorem find?_range_eq_some (p : Nat → Bool) (n h : Nat) (hh : h < n) (hp : p h = true)
    (hq : ∀ j, j < h → p j = false) : (List.range n).find? p = some h := by
  induction n with
  | zero => omega
  | succ m ih =>
    rw [List.range_succ, List.find?_append]
    by_cases hm : h < m
    · rw [ih hm]; rfl
    · have hhm : h = m := by omega
      subst hhm
      have hnone : (List.range h).find? p = none := by
        rw [List.find?_eq_none]
        intro x hx
        rw [List.mem_range] at hx
        simp [hq x hx]
      rw [hnone]
      simp [hp]

theorem findOwner_eq (s : State) (h : Nat) (hh : h < s.n) (ha : (s.audio h).isSome = true) :
    findOwner s h = some h := by
  unfold findOwner
  apply find?_range_eq_some _ _ _ hh
  · simp [audioHandle, ha]
  · intro j hj
    have : j ≠ h := by omega
    unfold audioHandle
    split <;> simp [this]

theorem enableAudio_of_enabled (s : State) (h : s.audioEnabled = true) : enableAudio s = s := by
  unfold enableAudio
  simp [h]

theorem enableAudio_frame (s : State) :
    (enableAudio s).n = s.n ∧ (enableAudio s).currentAudio = s.currentAudio ∧
    (enableAudio s).timers = s.timers ∧ (enableAudio s).audioTimeout = s.audioTimeout ∧
    (enableAudio s).playing = s.playing ∧ (enableAudio s).hasButton = s.hasButton ∧
    (enableAudio s).active = s.active ∧
    (enableAudio s).userControlledAudio = s.userControlledAudio ∧
    (enableAudio s).mark = s.mark ∧ (enableAudio s).nextTimer = s.nextTimer := by
  unfold enableAudio
  split
  · simp
  · simp only []
    split
    · simp
    · split
      · simp
      · split <;> simp [play, assignSrc, modAudio]

theorem enableAudio_audio (s : State) (j : Nat) (a : Audio) (ha : s.audio j = some a) :
    ∃ b, (enableAudio s).audio j = some b ∧ b.source = a.source := by
  unfold enableAudio
  split
  · exact ⟨a, ha, rfl⟩
  · simp only []
    split
    · exact ⟨a, ha, rfl⟩
    · split
      · exact ⟨a, ha, rfl⟩
      · split
        · by_cases hj : j = 0
          · subst hj
            simp [play, assignSrc, modAudio, setAt, ha]
          · simp [play, assignSrc, modAudio, setAt, hj, ha]
        · exact ⟨a, ha, rfl⟩

theorem stopOther_frame (s : State) (i : Nat) :
    (stopOther s i).currentAudio = s.currentAudio ∧ (stopOther s i).timers = s.timers ∧
    (stopOther s i).audioTimeout = s.audioTimeout ∧ (stopOther s i).pending = s.pending ∧
    (stopOther s i).nextAttempt = s.nextAttempt ∧
    (stopOther s i).userControlledAudio = s.userControlledAudio ∧
    (stopOther s i).hasButton = s.hasButton ∧ (stopOther s i).active = s.active ∧
    (stopOther s i).audio i = s.audio i := by
  unfold stopOther
  split
  · simp
  · split
    · simp
    · rename_i h _ hne
      have hih : i ≠ h := fun e => hne e.symm
      simp only []
      split
      · simp only [updatePlayPauseButton_audio]
        unfold updatePlayPauseButton
        split <;> simp [seek0, pause, modAudio, setAt, hih]
      · simp [seek0, pause, modAudio, setAt, hih]

theorem stopOther_other {s : State} (hinv : Inv s) (i h : Nat) (hc : s.currentAudio = some h)
    (hne : h ≠ i) :
    (∃ b, (stopOther s i).audio h = some b ∧ b.paused = true ∧ b.currentTime = 0) ∧
    (stopOther s i).playing (h : Int) = false := by
  obtain ⟨hlt, a, ha, _⟩ := hinv.cur_bound h hc
  have hown : findOwner (seek0 (pause s h) h) h = some h := by
    exact findOwner_eq (seek0 (pause s h) h) h hlt
      (by simp [seek0, pause, modAudio, setAt, ha])
  have heq : stopOther s i = updatePlayPauseButton (seek0 (pause s h) h) (h : Int) false := by
    unfold stopOther
    simp only [hc, hne, if_false, hown]
  rw [heq]
  constructor
  · rw [updatePlayPauseButton_audio]
    exact ⟨_, by simp [seek0, pause, modAudio, setAt, ha]; rfl, rfl, rfl⟩
  · exact updatePlayPauseButton_playing_false (inv_seek0 (inv_pause hinv h) h) _

theorem togglePlay_fields (s : State) (i : Nat) (k : Int) :
    (togglePlay s i k).currentAudio = some i ∧
    (togglePlay s i k).pending =
      s.pending ++ [{ id := s.nextAttempt, audio := i, handler := Handler.toggle k }] ∧
    (togglePlay s i k).userControlledAudio = s.userControlledAudio ∧
    (togglePlay s i k).timers = s.timers ∧
    (togglePlay s i k).audioTimeout = s.audioTimeout ∧
    (togglePlay s i k).hasButton = s.hasButton ∧
    (togglePlay s i k).active = s.active ∧
    (togglePlay s i k).playing = (stopOther s i).playing ∧
    (togglePlay s i k).audio i = (s.audio i).map (fun a =>
      { a with paused := false, ended := false, currentTime := 0 }) ∧
    (∀ j, j ≠ i → (togglePlay s i k).audio j = (stopOther s i).audio j) := by
  obtain ⟨f1, f2, f3, f4, f5, f6, f7, f8, f9⟩ := stopOther_frame s i
  unfold togglePlay
  refine ⟨rfl, ?_, f6, f2, f3, f7, f8, rfl, ?_, ?_⟩
  · simp [play, seek0, modAudio, f4, f5]
  · cases ha : s.audio i <;> simp [play, seek0, modAudio, setAt, f9, ha]
  · intro j hj
    simp [play, seek0, modAudio, setAt, hj]

theorem toggleUserPlayback_eq (s : State) (k : Int) (i : Nat) (a1 : Audio)
    (hi : item? s k = some i)
    (ha1 : (enableAudio s).audio i = some a1) (hsrc : a1.source = some true) :
    toggleUserPlayback s (some k) =
      toggleBranch (rebind { enableAudio s with userControlledAudio := true } i a1) i k := by
  have hi1 : item? { enableAudio s with userControlledAudio := true } k = some i := by
    unfold item? at hi ⊢
    simp only [(enableAudio_frame s).1]
    exact hi
  unfold toggleUserPlayback
  simp only [hi1, ha1, hsrc]

theorem clearAudioTimeout_frame (s : State) :
    (clearAudioTimeout s).currentAudio = s.currentAudio ∧
    (clearAudioTimeout s).userControlledAudio = s.userControlledAudio ∧
    (clearAudioTimeout s).playing = s.playing ∧ (clearAudioTimeout s).active = s.active ∧
    (clearAudioTimeout s).pending = s.pending ∧ (clearAudioTimeout s).hasButton = s.hasButton := by
  unfold clearAudioTimeout
  split <;> simp

theorem updatePlayPauseButton_frame (s : State) (k : Int) (b : Bool) :
    (updatePlayPauseButton s k b).currentAudio = s.currentAudio ∧
    (updatePlayPauseButton s k b).userControlledAudio = s.userControlledAudio ∧
    (updatePlayPauseButton s k b).audioTimeout = s.audioTimeout ∧
    (updatePlayPauseButton s k b).timers = s.timers ∧
    (updatePlayPauseButton s k b).active = s.active ∧
    (updatePlayPauseButton s k b).pending = s.pending ∧
    (updatePlayPauseButton s k b).hasButton = s.hasButton := by
  unfold updatePlayPauseButton
  split <;> simp

theorem updatePlayPauseButton_playing_true (s : State) (k : Int) (hb : s.hasButton k = true) :
    (updatePlayPauseButton s k true).playing k = true := by
  unfold updatePlayPauseButton
  simp [hb, setAt]

/-- The play branch is taken when the audio is not the current handle or is
paused or ended. -/
theorem toggleUserPlayback_play {s : State} (hinv : Inv s) (k : Int) (i : Nat) (a : Audio)
    (hi : item? s k = some i) (ha : s.audio i = some a) (hsrc : a.source = some true)
    (hnp : ¬ (s.currentAudio = some i ∧ a.paused = false ∧ a.ended = false)) :
    ∃ s2 : State, toggleUserPlayback s (some k) = togglePlay s2 i k ∧ Inv s2 ∧
      s2.userControlledAudio = true ∧ s2.currentAudio = s.currentAudio ∧
      s2.pending = (enableAudio s).pending ∧ s2.nextAttempt = (enableAudio s).nextAttempt ∧
      s2.hasButton = s.hasButton ∧ s2.active = s.active ∧ (∃ b, s2.audio i = some b) := by
  obtain ⟨a1, ha1, hs1⟩ := enableAudio_audio s i a ha
  have hsrc1 : a1.source = some true := hs1.trans hsrc
  obtain ⟨_, e2, _, _, _, e6, e7, _, _, _⟩ := enableAudio_frame s
  obtain ⟨_, _, r3, _, _, r6, r7, r8, r9, r10, _⟩ :=
    rebind_frame { enableAudio s with userControlledAudio := true } i a1
  have hinv2 : Inv (rebind { enableAudio s with userControlledAudio := true } i a1) :=
    inv_rebind (inv_setUserControlled (inv_enableAudio hinv) true) i a1
  refine ⟨rebind { enableAudio s with userControlledAudio := true } i a1, ?_, hinv2, r8,
    r3.trans e2, r6, r7, r9.trans e6, r10.trans e7, ?_⟩
  · rw [toggleUserPlayback_eq s k i a1 hi ha1 hsrc1]
    unfold toggleBranch
    rw [if_neg]
    rintro ⟨hc, hpl⟩
    have hc' : s.currentAudio = some i := by rw [← e2, ← hc]; exact r3.symm
    have hE : enableAudio s = s := enableAudio_of_enabled s (hinv.cur_enabled i hc')
    rw [hE] at ha1
    have haa : a1 = a := Option.some.inj (ha1.symm.trans ha)
    subst haa
    rw [hE] at hpl
    by_cases hb : (!a1.src || !a1.srcIncl) = true
    · simp [rebind, hb, notPausedNotEnded, load, assignSrc, modAudio, setAt, ha] at hpl
    · have hre : rebind { s with userControlledAudio := true } i a1
          = { s with userControlledAudio := true } := by
        unfold rebind
        exact if_neg hb
      rw [hre] at hpl
      apply hnp
      refine ⟨hc', ?_⟩
      simpa [notPausedNotEnded, ha] using hpl
  · obtain ⟨b, hb, _⟩ := rebind_bound { enableAudio s with userControlledAudio := true } i a1 ha1
    exact ⟨b, hb⟩

/-- C6: in a reachable state let `k` be the index of an item whose audio has a
source address and is not playing as the current handle (it is not the current
handle, or it is paused or ended).  Then the play/pause handler sets
`userControlledAudio`; a different audio that was current is paused, rewound
and its item's affordance is not playing; the audio of item `k` is the current
handle, and the only one, at time 0 with a play promise pending.  Once that
promise is fulfilled the handle and the flag are unchanged, no timer is armed
and `audioTimeout` is null, and the button of item `k`, when the page has one,
is playing. -/
theorem c6_toggle_starts_playback (d : Dom) (s : State) (k : Int) (i : Nat) (a : Audio)
    (hr : Reachable d s) (hi : item? s k = some i) (ha : s.audio i = some a)
    (hsrc : a.source = some true)
    (hnp : ¬ (s.currentAudio = some i ∧ a.paused = false ∧ a.ended = false)) :
    (toggleUserPlayback s (some k)).userControlledAudio = true ∧
    (∀ h, s.currentAudio = some h → h ≠ i →
      (∃ b, (toggleUserPlayback s (some k)).audio h = some b ∧ b.paused = true ∧
        b.currentTime = 0) ∧
      (toggleUserPlayback s (some k)).playing (h : Int) = false) ∧
    (toggleUserPlayback s (some k)).currentAudio = some i ∧
    (∃ b, (toggleUserPlayback s (some k)).audio i = some b ∧ b.currentTime = 0 ∧
      b.paused = false) ∧
    (toggleUserPlayback s (some k)).pending = (enableAudio s).pending ++
      [{ id := (enableAudio s).nextAttempt, audio := i, handler := Handler.toggle k }] ∧
    (settle (toggleUserPlayback s (some k)) (enableAudio s).nextAttempt true).currentAudio
      = some i ∧
    (settle (toggleUserPlayback s (some k)) (enableAudio s).nextAttempt true).userControlledAudio
      = true ∧
    (settle (toggleUserPlayback s (some k)) (enableAudio s).nextAttempt true).audioTimeout
      = none ∧
    (settle (toggleUserPlayback s (some k)) (enableAudio s).nextAttempt true).timers = [] ∧
    (s.hasButton k = true →
      (settle (toggleUserPlayback s (some k)) (enableAudio s).nextAttempt true).playing k
        = true) := by
  have hinv := inv_of_reachable hr
  obtain ⟨s2, heq, hinv2, huc2, hcur2, hpend2, hna2, hhb2, _, b2, hb2⟩ :=
    toggleUserPlayback_play hinv k i a hi ha hsrc hnp
  obtain ⟨f1, f2, f3, f4, f5, f6, f7, f8, f9, f10⟩ := togglePlay_fields s2 i k
  have hinv' : Inv (toggleUserPlayback s (some k)) := inv_toggleUserPlayback hinv _
  have hpend : (toggleUserPlayback s (some k)).pending = (enableAudio s).pending ++
      [{ id := (enableAudio s).nextAttempt, audio := i, handler := Handler.toggle k }] := by
    rw [heq, f2, hpend2, hna2]
  have hfresh : ∀ q ∈ (enableAudio s).pending, q.id <
      ({ id := (enableAudio s).nextAttempt, audio := i, handler := Handler.toggle k } :
        Attempt).id :=
    fun q hq => (inv_enableAudio hinv).pending_fresh q hq
  have hsettle : settle (toggleUserPlayback s (some k)) (enableAudio s).nextAttempt true =
      clearAudioTimeout (updatePlayPauseButton
        { toggleUserPlayback s (some k) with
          pending := (toggleUserPlayback s (some k)).pending.filter
            (fun x => x.id ≠ (enableAudio s).nextAttempt) } k true) := by
    unfold settle
    have h1 := find?_append_fresh (enableAudio s).pending
      { id := (enableAudio s).nextAttempt, audio := i, handler := Handler.toggle k } hfresh
    simp only [] at h1
    rw [hpend, h1]
    simp only [runHandler]
  have hinv3 : Inv (updatePlayPauseButton
      { toggleUserPlayback s (some k) with
        pending := (toggleUserPlayback s (some k)).pending.filter
          (fun x => x.id ≠ (enableAudio s).nextAttempt) } k true) :=
    inv_updatePlayPauseButton (inv_removeAttempt hinv' _) k true
  obtain ⟨c1, c2, c3, _, _, _⟩ := clearAudioTimeout_frame (updatePlayPauseButton
      { toggleUserPlayback s (some k) with
        pending := (toggleUserPlayback s (some k)).pending.filter
          (fun x => x.id ≠ (enableAudio s).nextAttempt) } k true)
  obtain ⟨u1, u2, _, _, _, _, _⟩ := updatePlayPauseButton_frame
      { toggleUserPlayback s (some k) with
        pending := (toggleUserPlayback s (some k)).pending.filter
          (fun x => x.id ≠ (enableAudio s).nextAttempt) } k true
  have hcur : (toggleUserPlayback s (some k)).currentAudio = some i := by rw [heq, f1]
  have huc : (toggleUserPlayback s (some k)).userControlledAudio = true := by
    rw [heq, f3, huc2]
  refine ⟨huc, ?_, hcur, ?_, hpend, ?_, ?_, ?_, ?_, ?_⟩
  · intro h hc hne
    have hc2 : s2.currentAudio = some h := hcur2.trans hc
    obtain ⟨ha', hp'⟩ := stopOther_other hinv2 i h hc2 hne
    rw [heq, f10 h hne, f8]
    exact ⟨ha', hp'⟩
  · rw [heq, f9, hb2]
    exact ⟨_, rfl, rfl, rfl⟩
  · rw [hsettle, c1, u1]; exact hcur
  · rw [hsettle, c2, u2]; exact huc
  · rw [hsettle]; exact clearAudioTimeout_audioTimeout _
  · rw [hsettle]; exact clearAudioTimeout_timers hinv3
  · intro hb
    rw [hsettle, c3]
    apply updatePlayPauseButton_playing_true
    show (toggleUserPlayback s (some k)).hasButton k = true
    rw [heq, f6, hhb2]; exact hb

/-- Witness of C6: on `pageThree`, while the snippet of item 1 plays, the button
of item 2 is clicked. -/
theorem c6_toggle_starts_playback_witness :
    Reachable pageThree (run pageThree [Event.goNext, Event.settle 0 true,
      Event.elapse 1 10000]) ∧
    (run pageThree [Event.goNext, Event.settle 0 true, Event.elapse 1 10000]).currentAudio
      = some 1 ∧
    (toggleUserPlayback (run pageThree [Event.goNext, Event.settle 0 true,
      Event.elapse 1 10000]) (some 2)).currentAudio = some 2 ∧
    ((toggleUserPlayback (run pageThree [Event.goNext, Event.settle 0 true,
      Event.elapse 1 10000]) (some 2)).audio 1).map (fun b => (b.paused, b.currentTime))
      = some (true, 0) ∧
    (settle (toggleUserPlayback (run pageThree [Event.goNext, Event.settle 0 true,
      Event.elapse 1 10000]) (some 2)) 1 true).timers = [] ∧
    (settle (toggleUserPlayback (run pageThree [Event.goNext, Event.settle 0 true,
      Event.elapse 1 10000]) (some 2)) 1 true).playing 2 = true :=
  have h := c6_toggle_starts_playback pageThree
    (run pageThree [Event.goNext, Event.settle 0 true, Event.elapse 1 10000]) 2 2
    { source := some true, src := false, srcIncl := false, addrIncl := true, paused := true, ended := false,
      currentTime := 0 }
    (reachable_run _ _) (by decide) (by decide) (by decide) (by decide)
  ⟨reachable_run _ _, by decide, h.2.2.1, by decide, h.2.2.2.2.2.2.2.2.1,
    h.2.2.2.2.2.2.2.2.2 (by decide)⟩

/-- C7 (fails on the code), on two pages.  On `pageOwnSrc`, after next and the
fulfilment of the snippet's play promise, the audio of item 1 is the current
handle, not paused and not ended; the play/pause handler of item 1 finds no
`source` element and returns: the audio is still not paused and still current,
and `userControlledAudio` is true.  On `pageEncodedSrc`, ten seconds into the
snippet of item 1, the handler finds that `audio.src` does not contain the
attribute text, assigns the address and reloads (lines 243-246), which pauses
the element, and then takes the play branch: the audio is playing again from
time 0, still current, with `userControlledAudio` true and the snippet timer
still armed. -/
theorem c7_toggle_does_not_pause :
    ((run pageOwnSrc [Event.goNext, Event.settle 0 true]).currentAudio = some 1 ∧
     ((run pageOwnSrc [Event.goNext, Event.settle 0 true]).audio 1).map
       (fun b => (b.paused, b.ended)) = some (false, false) ∧
     ((toggleUserPlayback (run pageOwnSrc [Event.goNext, Event.settle 0 true]) (some 1)).audio
       1).map (fun b => b.paused) = some false ∧
     (toggleUserPlayback (run pageOwnSrc [Event.goNext, Event.settle 0 true])
       (some 1)).currentAudio = some 1 ∧
     (toggleUserPlayback (run pageOwnSrc [Event.goNext, Event.settle 0 true])
       (some 1)).userControlledAudio = true ∧
     (toggleUserPlayback (run pageOwnSrc [Event.goNext, Event.settle 0 true])
       (some 1)).playing 1 = true) ∧
    ((run pageEncodedSrc [Event.goNext, Event.settle 0 true, Event.elapse 1 10000]).currentAudio
       = some 1 ∧
     ((run pageEncodedSrc [Event.goNext, Event.settle 0 true, Event.elapse 1 10000]).audio
       1).map (fun b => (b.paused, b.ended, b.currentTime)) = some (false, false, 10000) ∧
     ((toggleUserPlayback (run pageEncodedSrc [Event.goNext, Event.settle 0 true,
       Event.elapse 1 10000]) (some 1)).audio 1).map (fun b => (b.paused, b.currentTime))
       = some (false, 0) ∧
     (toggleUserPlayback (run pageEncodedSrc [Event.goNext, Event.settle 0 true,
       Event.elapse 1 10000]) (some 1)).currentAudio = some 1 ∧
     (toggleUserPlayback (run pageEncodedSrc [Event.goNext, Event.settle 0 true,
       Event.elapse 1 10000]) (some 1)).userControlledAudio = true ∧
     (toggleUserPlayback (run pageEncodedSrc [Event.goNext, Event.settle 0 true,
       Event.elapse 1 10000]) (some 1)).timers = [{ id := 1, audio := 1, delay := 60000 }]) := by
  decide

/-- C7 (amended): in a reachable state let `k` be the index of an item whose
audio has a `source` element with an address, whose `audio.src` contains the
text of that address (so that lines 243-246 do not reload it), and which is the
current handle and is neither paused nor ended.  Then the play/pause handler
pauses it where it stands, leaves no timer armed and `audioTimeout` null,
clears the current handle, resets `userControlledAudio` to false and leaves the
affordance of `k` not playing; the active index is unchanged. -/
theorem c7_toggle_pauses (d : Dom) (s : State) (k : Int) (i : Nat) (a : Audio)
    (hr : Reachable d s) (hi : item? s k = some i) (ha : s.audio i = some a)
    (hsrc : a.source = some true) (hincl : a.srcIncl = true) (hc : s.currentAudio = some i)
    (hp : a.paused = false) (he : a.ended = false) :
    (toggleUserPlayback s (some k)).audio i = some { a with paused := true } ∧
    (toggleUserPlayback s (some k)).audioTimeout = none ∧
    (toggleUserPlayback s (some k)).timers = [] ∧
    (toggleUserPlayback s (some k)).currentAudio = none ∧
    (toggleUserPlayback s (some k)).userControlledAudio = false ∧
    (toggleUserPlayback s (some k)).playing k = false ∧
    (toggleUserPlayback s (some k)).active = s.active := by
  have hinv := inv_of_reachable hr
  have hE : enableAudio s = s := enableAudio_of_enabled s (hinv.cur_enabled i hc)
  obtain ⟨_, b, hb, hbs⟩ := hinv.cur_bound i hc
  have hab : b = a := Option.some.inj (hb.symm.trans ha)
  subst hab
  have heq : toggleUserPlayback s (some k) =
      togglePause { s with userControlledAudio := true } i k := by
    rw [toggleUserPlayback_eq s k i b hi (by rw [hE]; exact ha) hsrc, hE]
    have hre : rebind { s with userControlledAudio := true } i b
        = { s with userControlledAudio := true } := by
      simp [rebind, hbs, hincl]
    rw [hre]
    unfold toggleBranch
    rw [if_pos]
    exact ⟨hc, by simp [notPausedNotEnded, ha, hp, he]⟩
  have hinv1 : Inv (pause { s with userControlledAudio := true } i) :=
    inv_pause (inv_setUserControlled hinv true) i
  have ht := clearAudioTimeout_timers hinv1
  have hto := clearAudioTimeout_audioTimeout (pause { s with userControlledAudio := true } i)
  obtain ⟨c1, _, _, c4, _, _⟩ :=
    clearAudioTimeout_frame (pause { s with userControlledAudio := true } i)
  have hcur1 : (clearAudioTimeout (pause { s with userControlledAudio := true } i)).currentAudio
      = some i := c1.trans hc
  have hmid : togglePause { s with userControlledAudio := true } i k =
      { updatePlayPauseButton
          { clearAudioTimeout (pause { s with userControlledAudio := true } i) with
            currentAudio := none } k false with userControlledAudio := false } := by
    unfold togglePause
    simp only [hcur1, if_true]
  have hinv2 : Inv { clearAudioTimeout (pause { s with userControlledAudio := true } i) with
      currentAudio := none } := inv_clearCurrent (inv_clearAudioTimeout hinv1)
  obtain ⟨u1, _, u3, u4, u5, _, _⟩ := updatePlayPauseButton_frame
    { clearAudioTimeout (pause { s with userControlledAudio := true } i) with
      currentAudio := none } k false
  rw [heq, hmid]
  refine ⟨?_, ?_, ?_, ?_, rfl, ?_, ?_⟩
  · show (updatePlayPauseButton _ k false).audio i = _
    rw [updatePlayPauseButton_audio]
    show (clearAudioTimeout _).audio i = _
    rw [clearAudioTimeout_audio]
    simp [pause, modAudio, setAt, ha]
  · exact u3.trans hto
  · exact u4.trans ht
  · exact u1
  · exact updatePlayPauseButton_playing_false hinv2 k
  · exact u5.trans c4

/-- Witness of C7 (amended): on `pageThree`, ten seconds into the snippet of
item 1, the button of item 1 is clicked. -/
theorem c7_toggle_pauses_witness :
    Reachable pageThree (run pageThree [Event.goNext, Event.settle 0 true,
      Event.elapse 1 10000]) ∧
    (run pageThree [Event.goNext, Event.settle 0 true, Event.elapse 1 10000]).timers =
      [{ id := 1, audio := 1, delay := 60000 }] ∧
    (toggleUserPlayback (run pageThree [Event.goNext, Event.settle 0 true,
      Event.elapse 1 10000]) (some 1)).audio 1 =
      some { source := some true, src := true, srcIncl := true, addrIncl := true,
             paused := true, ended := false, currentTime := 10000 } ∧
    (toggleUserPlayback (run pageThree [Event.goNext, Event.settle 0 true,
      Event.elapse 1 10000]) (some 1)).timers = [] ∧
    (toggleUserPlayback (run pageThree [Event.goNext, Event.settle 0 true,
      Event.elapse 1 10000]) (some 1)).currentAudio = none :=
  have h := c7_toggle_pauses pageThree
    (run pageThree [Event.goNext, Event.settle 0 true, Event.elapse 1 10000]) 1 1
    { source := some true, src := true, srcIncl := true, addrIncl := true, paused := false,
      ended := false, currentTime := 10000 }
    (reachable_run _ _) (by decide) (by decide) (by decide) rfl (by decide) rfl rfl
  ⟨reachable_run _ _, by decide, h.1, h.2.2.1, h.2.2.2.1⟩

theorem playAudioSnippet_frame (s : State) :
    (playAudioSnippet s).userControlledAudio = s.userControlledAudio ∧
    (playAudioSnippet s).active = s.active ∧
    (playAudioSnippet s).audioEnabled = s.audioEnabled ∧
    (playAudioSnippet s).n = s.n ∧ (playAudioSnippet s).mark = s.mark ∧
    (playAudioSnippet s).nextHidden = s.nextHidden ∧
    (playAudioSnippet s).prevHidden = s.prevHidden := by
  obtain ⟨hn, hact, hen, huc, _, _, _, _, hm⟩ := stopAllAudio_frame s
  have h3 : (stopAllAudio s).nextHidden = s.nextHidden ∧
      (stopAllAudio s).prevHidden = s.prevHidden := by
    unfold stopAllAudio resetAllPlayPauseButtons clearAudioTimeout
    cases hc : s.currentAudio <;> simp only [] <;> split <;> simp_all [seek0, pause, modAudio]
  have key : ∀ (s2 : State) (i : Nat), s2.userControlledAudio = s.userControlledAudio →
      s2.active = s.active → s2.audioEnabled = s.audioEnabled → s2.n = s.n → s2.mark = s.mark →
      s2.nextHidden = s.nextHidden → s2.prevHidden = s.prevHidden →
      (if srcSet s2 i = true then startSnippet s2 i else s2).userControlledAudio
        = s.userControlledAudio ∧
      (if srcSet s2 i = true then startSnippet s2 i else s2).active = s.active ∧
      (if srcSet s2 i = true then startSnippet s2 i else s2).audioEnabled = s.audioEnabled ∧
      (if srcSet s2 i = true then startSnippet s2 i else s2).n = s.n ∧
      (if srcSet s2 i = true then startSnippet s2 i else s2).mark = s.mark ∧
      (if srcSet s2 i = true then startSnippet s2 i else s2).nextHidden = s.nextHidden ∧
      (if srcSet s2 i = true then startSnippet s2 i else s2).prevHidden = s.prevHidden := by
    intro s2 i h1 h2 h3 h4 h5 h6 h7
    split
    · exact ⟨h1, h2, h3, h4, h5, h6, h7⟩
    · exact ⟨h1, h2, h3, h4, h5, h6, h7⟩
  unfold playAudioSnippet
  split
  · simp
  · simp only []
    split
    · exact ⟨huc, hact, hen, hn, hm, h3.1, h3.2⟩
    · split
      · exact ⟨huc, hact, hen, hn, hm, h3.1, h3.2⟩
      · split
        · exact ⟨huc, hact, hen, hn, hm, h3.1, h3.2⟩
        · split
          · exact key _ _ huc hact hen hn hm h3.1 h3.2
          · exact key _ _ huc hact hen hn hm h3.1 h3.2

/-- What `setSlider` does when the active index is in range. -/
theorem setSlider_in_range (s : State) (i : Nat) (hi : item? s s.active = some i) :
    (setSlider s).userControlledAudio = false ∧ (setSlider s).active = s.active ∧
    (setSlider s).audioEnabled = s.audioEnabled ∧
    (s.audioEnabled = true → ∀ a, s.audio i = some a → a.source = some true →
      (setSlider s).currentAudio = some i) := by
  have key : ∀ s4 : State, s4.n = s.n → s4.active = s.active → s4.audio = s.audio →
      s4.audioEnabled = s.audioEnabled →
      (playAudioSnippet { s4 with userControlledAudio := false }).userControlledAudio = false ∧
      (playAudioSnippet { s4 with userControlledAudio := false }).active = s.active ∧
      (playAudioSnippet { s4 with userControlledAudio := false }).audioEnabled
        = s.audioEnabled ∧
      (s.audioEnabled = true → ∀ a, s.audio i = some a → a.source = some true →
        (playAudioSnippet { s4 with userControlledAudio := false }).currentAudio = some i) := by
    intro s4 hn4 hact4 haud4 hen4
    obtain ⟨p1, p2, p3, _⟩ := playAudioSnippet_frame { s4 with userControlledAudio := false }
    refine ⟨p1, p2.trans hact4, p3.trans hen4, ?_⟩
    intro he a ha hsrc
    have hi4 : item? { s4 with userControlledAudio := false }
        ({ s4 with userControlledAudio := false } : State).active = some i := by
      unfold item? at hi ⊢
      simp only [hn4, hact4]; exact hi
    rw [playAudioSnippet_eq { s4 with userControlledAudio := false } i a rfl
      (hen4.trans he) hi4 (by simp only [haud4]; exact ha) hsrc]
    rfl
  unfold setSlider
  generalize hs1 : (match oldActive s with
      | some j => { s with mark := setAt s.mark j false }
      | none => s) = s1
  have hn : s1.n = s.n := by rw [← hs1]; split <;> rfl
  have hact : s1.active = s.active := by rw [← hs1]; split <;> rfl
  have haud : s1.audio = s.audio := by rw [← hs1]; split <;> rfl
  have hen : s1.audioEnabled = s.audioEnabled := by rw [← hs1]; split <;> rfl
  have hi1 : item? s1 s1.active = some i := by
    unfold item? at hi ⊢
    rw [hn, hact]; exact hi
  simp only [hi1]
  split <;> split <;> exact key _ hn hact haud hen

theorem jumpIfValid_in_range (s : State) (k : Int) (i : Nat) (hi : item? s k = some i) :
    jumpIfValid s (some k) = setSlider { s with active := k } := by
  have h := item?_eq_some hi
  unfold jumpIfValid
  simp only [h.1, h.2.1, and_self, if_true]

/-- C8 (fails on the code): on `pageThree` after `lastItemUserTrace` the last
item is active and its audio plays under user control.  The next command drives
`active` to 3, `setSlider` stops at line 151, and `userControlledAudio` is
still true. -/
theorem c8_next_past_the_end_keeps_user_control :
    (run pageThree lastItemUserTrace).userControlledAudio = true ∧
    (run pageThree lastItemUserTrace).active = 2 ∧
    (goNext (run pageThree lastItemUserTrace)).userControlledAudio = true ∧
    (goNext (run pageThree lastItemUserTrace)).active = 3 := by
  decide

/-- C8 (amended): a navigation command whose target index `k` is in range (next
with `active + 1 = k`, previous with `active - 1 = k`, a track link or a menu
link to `k`), issued while `userControlledAudio` is true, leaves the flag false
and `active = k`, and the automatic play attempt is not suppressed: when audio
is unlocked and item `k` has an audio with a source address, that audio is the
current handle afterwards.  Next, previous and the menu link unlock audio
themselves. -/
theorem c8_navigation_clears_user_control (s : State) (k : Int) (i : Nat) (e : Event)
    (_huc : s.userControlledAudio = true) (hi : item? s k = some i)
    (he : (e = Event.goNext ∧ s.active + 1 = k) ∨ (e = Event.goPrevious ∧ s.active - 1 = k) ∨
      e = Event.trackLink (some k) ∨ e = Event.menuLink (some k)) :
    (step s e).userControlledAudio = false ∧ (step s e).active = k ∧
    (e ≠ Event.trackLink (some k) → (step s e).audioEnabled = true) ∧
    ((step s e).audioEnabled = true → ∀ a, s.audio i = some a → a.source = some true →
      (step s e).currentAudio = some i) := by
  have hn := (enableAudio_frame s).1
  have hiE : ∀ act : Int, act = k →
      item? { enableAudio s with active := act } ({ enableAudio s with active := act } : State).active
        = some i := by
    intro act hact
    subst hact
    unfold item? at hi ⊢
    simp only [hn]; exact hi
  have viaEnable : ∀ act : Int, act = k →
      (setSlider { enableAudio s with active := act }).userControlledAudio = false ∧
      (setSlider { enableAudio s with active := act }).active = k ∧
      (setSlider { enableAudio s with active := act }).audioEnabled = true ∧
      ((setSlider { enableAudio s with active := act }).audioEnabled = true →
        ∀ a, s.audio i = some a → a.source = some true →
        (setSlider { enableAudio s with active := act }).currentAudio = some i) := by
    intro act hact
    obtain ⟨h1, h2, h3, h4⟩ := setSlider_in_range { enableAudio s with active := act } i
      (hiE act hact)
    have hen : ({ enableAudio s with active := act } : State).audioEnabled = true :=
      enableAudio_audioEnabled s
    refine ⟨h1, h2.trans hact, h3.trans hen, ?_⟩
    intro _ a ha hsrc
    obtain ⟨b, hb, hbs⟩ := enableAudio_audio s i a ha
    exact h4 hen b hb (hbs.trans hsrc)
  rcases he with ⟨rfl, hk⟩ | ⟨rfl, hk⟩ | rfl | rfl
  · obtain ⟨h1, h2, h3, h4⟩ := viaEnable (s.active + 1) hk
    have hs : step s Event.goNext = setSlider { enableAudio s with active := s.active + 1 } := by
      show goNext s = _
      unfold goNext
      simp only [(enableAudio_frame s).2.2.2.2.2.2.1]
    rw [hs]
    exact ⟨h1, h2, fun _ => h3, h4⟩
  · obtain ⟨h1, h2, h3, h4⟩ := viaEnable (s.active - 1) hk
    have hs : step s Event.goPrevious =
        setSlider { enableAudio s with active := s.active - 1 } := by
      show goPrevious s = _
      unfold goPrevious
      simp only [(enableAudio_frame s).2.2.2.2.2.2.1]
    rw [hs]
    exact ⟨h1, h2, fun _ => h3, h4⟩
  · have hs : step s (Event.trackLink (some k)) = setSlider { s with active := k } :=
      jumpIfValid_in_range s k i hi
    have hi' : item? { s with active := k } ({ s with active := k } : State).active = some i := by
      unfold item? at hi ⊢
      exact hi
    obtain ⟨h1, h2, h3, h4⟩ := setSlider_in_range { s with active := k } i hi'
    rw [hs]
    refine ⟨h1, h2, fun h => absurd rfl h, ?_⟩
    intro hen a ha hsrc
    exact h4 (h3.symm.trans hen) a ha hsrc
  · obtain ⟨h1, h2, h3, h4⟩ := viaEnable k rfl
    have hs : step s (Event.menuLink (some k)) = setSlider { enableAudio s with active := k } := by
      show jumpIfValid (enableAudio s) (some k) = _
      apply jumpIfValid_in_range _ k i
      unfold item? at hi ⊢
      rw [hn]; exact hi
    rw [hs]
    exact ⟨h1, h2, fun _ => h3, h4⟩

/-- Witness of C8 (amended): on `pageThree`, while the user's own playback of
item 1 is starting, next moves to item 2. -/
theorem c8_navigation_clears_user_control_witness :
    (run pageThree [Event.goNext, Event.settle 0 true, Event.toggle (some 1),
      Event.toggle (some 1)]).userControlledAudio = true ∧
    (run pageThree [Event.goNext, Event.settle 0 true, Event.toggle (some 1),
      Event.toggle (some 1)]).active = 1 ∧
    (step (run pageThree [Event.goNext, Event.settle 0 true, Event.toggle (some 1),
      Event.toggle (some 1)]) Event.goNext).userControlledAudio = false ∧
    (step (run pageThree [Event.goNext, Event.settle 0 true, Event.toggle (some 1),
      Event.toggle (some 1)]) Event.goNext).currentAudio = some 2 :=
  have h := c8_navigation_clears_user_control
    (run pageThree [Event.goNext, Event.settle 0 true, Event.toggle (some 1),
      Event.toggle (some 1)]) 2 2 Event.goNext (by decide) (by decide)
    (Or.inl ⟨rfl, by decide⟩)
  ⟨by decide, by decide, h.1,
    h.2.2.2 (h.2.2.1 (by decide))
      { source := some true, src := false, srcIncl := false, addrIncl := true, paused := true, ended := false,
        currentTime := 0 } (by decide) rfl⟩

theorem jumpIfValid_out_of_range (s : State) (idx : Option Int)
    (h : idx = none ∨ ∃ k, idx = some k ∧ ¬ (0 ≤ k ∧ k < (s.n : Int))) :
    jumpIfValid s idx = s := by
  unfold jumpIfValid
  rcases h with rfl | ⟨k, rfl, hk⟩
  · rfl
  · simp only [hk, if_false]

/-- C9: for a target that is not a number, negative or at least `items.length`,
the track-link handler changes nothing at all and the menu-link handler leaves
`active`, the active marks, `currentAudio`, `audioTimeout` and
`userControlledAudio` as they were; for a target inside the range both
handlers set `active` to exactly that index. -/
theorem c9_jumpTo (s : State) (idx : Option Int) :
    ((idx = none ∨ ∃ k, idx = some k ∧ ¬ (0 ≤ k ∧ k < (s.n : Int))) →
      trackLink s idx = s ∧
      (menuLink s idx).active = s.active ∧ (menuLink s idx).mark = s.mark ∧
      (menuLink s idx).currentAudio = s.currentAudio ∧
      (menuLink s idx).audioTimeout = s.audioTimeout ∧
      (menuLink s idx).userControlledAudio = s.userControlledAudio ∧
      (menuLink s idx).timers = s.timers) ∧
    (∀ k, idx = some k → 0 ≤ k ∧ k < (s.n : Int) →
      (trackLink s idx).active = k ∧ (menuLink s idx).active = k) := by
  constructor
  · intro h
    have hm : menuLink s idx = enableAudio s := by
      unfold menuLink
      apply jumpIfValid_out_of_range
      rw [(enableAudio_frame s).1]
      exact h
    obtain ⟨_, e2, e3, e4, _, _, e7, e8, e9, _⟩ := enableAudio_frame s
    rw [hm]
    exact ⟨jumpIfValid_out_of_range s idx h, e7, e9, e2, e4, e8, e3⟩
  · rintro k rfl hk
    have hi : item? s k = some k.toNat := item?_of_range s hk
    have hiE : item? (enableAudio s) k = some k.toNat := by
      unfold item? at hi ⊢
      rw [(enableAudio_frame s).1]; exact hi
    constructor
    · show (jumpIfValid s (some k)).active = k
      rw [jumpIfValid_in_range s k _ hi]
      exact (setSlider_in_range { s with active := k } k.toNat hi).2.1
    · show (jumpIfValid (enableAudio s) (some k)).active = k
      rw [jumpIfValid_in_range _ k _ hiE]
      exact (setSlider_in_range { enableAudio s with active := k } k.toNat hiE).2.1

/-- Witness of C9: on `pageThree` with item 1 active and its snippet playing, a
link to index 5 and a link to index 2. -/
theorem c9_jumpTo_witness :
    (trackLink (run pageThree [Event.goNext, Event.settle 0 true]) (some 5)).active = 1 ∧
    (menuLink (run pageThree [Event.goNext, Event.settle 0 true]) (some 5)).currentAudio
      = some 1 ∧
    (trackLink (run pageThree [Event.goNext, Event.settle 0 true]) (some 2)).active = 2 ∧
    (menuLink (run pageThree [Event.goNext, Event.settle 0 true]) (some 2)).active = 2 :=
  have h := c9_jumpTo (run pageThree [Event.goNext, Event.settle 0 true])
  ⟨(congrArg State.active ((h (some 5)).1 (Or.inr ⟨5, rfl, by decide⟩)).1).trans (by decide),
    ((h (some 5)).1 (Or.inr ⟨5, rfl, by decide⟩)).2.2.2.1.trans (by decide),
    ((h (some 2)).2 2 rfl (by decide)).1, ((h (some 2)).2 2 rfl (by decide)).2⟩

/-- What `stopAllAudio` establishes in every state that satisfies the invariant:
no current handle, `audioTimeout` null, no timer armed, every affordance not
playing, and the audio that was current paused and rewound. -/
theorem stopAllAudio_post {s : State} (hinv : Inv s) :
    (stopAllAudio s).currentAudio = none ∧ (stopAllAudio s).audioTimeout = none ∧
    (stopAllAudio s).timers = [] ∧ (∀ k, (stopAllAudio s).playing k = false) ∧
    (∀ h, s.currentAudio = some h →
      ∃ b, (stopAllAudio s).audio h = some b ∧ b.paused = true ∧ b.currentTime = 0) := by
  refine ⟨stopAllAudio_currentAudio s, stopAllAudio_audioTimeout s, stopAllAudio_timers hinv,
    stopAllAudio_playing s, ?_⟩
  intro h hc
  obtain ⟨_, a, ha, _⟩ := hinv.cur_bound h hc
  exact ⟨_, stopAllAudio_audio_current s h a hc ha, rfl, rfl⟩

/-- C10 (fails on the code): on `pageThree` after `untrackedTrace` no play
promise is pending, the audio of item 2 is playing and `currentAudio` is null.
After `stopAllAudio` there is no handle, no timer and no affordance playing,
but the audio of item 2 is still not paused. -/
theorem c10_stopAll_leaves_untracked_audio_playing :
    (run pageThree untrackedTrace).pending = [] ∧
    (run pageThree untrackedTrace).currentAudio = none ∧
    ((run pageThree untrackedTrace).audio 2).map (fun b => b.paused) = some false ∧
    (stopAllAudio (run pageThree untrackedTrace)).currentAudio = none ∧
    (stopAllAudio (run pageThree untrackedTrace)).audioTimeout = none ∧
    (stopAllAudio (run pageThree untrackedTrace)).timers = [] ∧
    (stopAllAudio (run pageThree untrackedTrace)).playing 2 = false ∧
    ((stopAllAudio (run pageThree untrackedTrace)).audio 2).map (fun b => b.paused)
      = some false := by
  decide

theorem stopAllAudio_of_idle (t : State) (hc : t.currentAudio = none)
    (ht : t.audioTimeout = none) : stopAllAudio t = resetAllPlayPauseButtons t := by
  unfold stopAllAudio clearAudioTimeout
  simp only [hc, ht]

/-- C11: `stopAllAudio` is idempotent on every state, and its result has no
current handle, no `audioTimeout` and every affordance not playing. -/
theorem c11_stopAllAudio_idempotent (s : State) :
    stopAllAudio (stopAllAudio s) = stopAllAudio s ∧
    (stopAllAudio s).currentAudio = none ∧ (stopAllAudio s).audioTimeout = none ∧
    (∀ k, (stopAllAudio s).playing k = false) := by
  refine ⟨?_, stopAllAudio_currentAudio s, stopAllAudio_audioTimeout s, stopAllAudio_playing s⟩
  rw [stopAllAudio_of_idle _ (stopAllAudio_currentAudio s) (stopAllAudio_audioTimeout s)]
  rfl

/-- C12 (fails on the code): on `pageThree` next starts the snippet of item 1;
when its play promise is rejected the handler of lines 125-128 sets the
affordance of the active item to not playing and nothing else: the audio of
item 1 is still the current handle and the timer is still armed. -/
theorem c12_snippet_rejection_keeps_handle :
    (run pageThree [Event.goNext]).pending =
      [{ id := 0, audio := 1, handler := Handler.snippet }] ∧
    (settle (run pageThree [Event.goNext]) 0 false).pending = [] ∧
    (settle (run pageThree [Event.goNext]) 0 false).playing 1 = false ∧
    (settle (run pageThree [Event.goNext]) 0 false).currentAudio = some 1 ∧
    (settle (run pageThree [Event.goNext]) 0 false).timers =
      [{ id := 1, audio := 1, delay := 60000 }] := by
  decide

theorem settle_toggle_rejected (s : State) (id : Nat) (p : Attempt) (k : Int)
    (hp : s.pending.find? (fun q => q.id = id) = some p) (hk : p.handler = Handler.toggle k) :
    settle s id false =
      { updatePlayPauseButton { s with pending := s.pending.filter (fun x => x.id ≠ id) } k false
        with userControlledAudio := false, currentAudio := none } := by
  unfold settle
  rw [hp]
  simp only [runHandler, hk]

/-- C13: when the play promise that the play/pause handler started with
`slideIndex = k` is rejected in a reachable state, its handler leaves
`userControlledAudio` false, `currentAudio` null and the affordance of `k` not
playing, and propagates nothing (the result is a state).  A later
`playAudioSnippet` is then not suppressed: with audio unlocked and an active
item in range whose audio has a source address, that audio becomes the current
handle. -/
theorem c13_toggle_rejection (d : Dom) (s : State) (id : Nat) (p : Attempt) (k : Int)
    (hr : Reachable d s) (hp : s.pending.find? (fun q => q.id = id) = some p)
    (hk : p.handler = Handler.toggle k) :
    (settle s id false).userControlledAudio = false ∧
    (settle s id false).currentAudio = none ∧
    (settle s id false).playing k = false ∧
    (∀ i a, s.audioEnabled = true → item? s s.active = some i → s.audio i = some a →
      a.source = some true → (playAudioSnippet (settle s id false)).currentAudio = some i) := by
  have hinv := inv_of_reachable hr
  have heq := settle_toggle_rejected s id p k hp hk
  have hinv1 : Inv { s with pending := s.pending.filter (fun x => x.id ≠ id) } :=
    inv_removeAttempt hinv id
  obtain ⟨_, _, _, _, u5, _, _⟩ := updatePlayPauseButton_frame
    { s with pending := s.pending.filter (fun x => x.id ≠ id) } k false
  have haud := updatePlayPauseButton_audio
    { s with pending := s.pending.filter (fun x => x.id ≠ id) } k false
  have hrest : (settle s id false).n = s.n ∧ (settle s id false).active = s.active ∧
      (settle s id false).audioEnabled = s.audioEnabled ∧ (settle s id false).audio = s.audio := by
    rw [heq]
    refine ⟨?_, u5, ?_, haud⟩
    · show (updatePlayPauseButton _ k false).n = s.n
      unfold updatePlayPauseButton; split <;> rfl
    · show (updatePlayPauseButton _ k false).audioEnabled = s.audioEnabled
      unfold updatePlayPauseButton; split <;> rfl
  refine ⟨by rw [heq], by rw [heq], ?_, ?_⟩
  · rw [heq]
    exact updatePlayPauseButton_playing_false hinv1 k
  · intro i a hen hi ha hsrc
    obtain ⟨r1, r2, r3, r4⟩ := hrest
    have hi' : item? (settle s id false) (settle s id false).active = some i := by
      unfold item? at hi ⊢
      rw [r1, r2]; exact hi
    rw [playAudioSnippet_eq (settle s id false) i a (by rw [heq]) (r3.trans hen) hi'
      (by rw [r4]; exact ha) hsrc]
    rfl

/-- Witness of C13: on `pageThree`, the play promise started by the button of
item 1 while item 1 is active is rejected. -/
theorem c13_toggle_rejection_witness :
    Reachable pageThree (run pageThree [Event.goNext, Event.settle 0 true,
      Event.toggle (some 1), Event.toggle (some 1)]) ∧
    (run pageThree [Event.goNext, Event.settle 0 true, Event.toggle (some 1),
      Event.toggle (some 1)]).userControlledAudio = true ∧
    (run pageThree [Event.goNext, Event.settle 0 true, Event.toggle (some 1),
      Event.toggle (some 1)]).currentAudio = some 1 ∧
    (settle (run pageThree [Event.goNext, Event.settle 0 true, Event.toggle (some 1),
      Event.toggle (some 1)]) 1 false).userControlledAudio = false ∧
    (settle (run pageThree [Event.goNext, Event.settle 0 true, Event.toggle (some 1),
      Event.toggle (some 1)]) 1 false).currentAudio = none :=
  have h := c13_toggle_rejection pageThree
    (run pageThree [Event.goNext, Event.settle 0 true, Event.toggle (some 1),
      Event.toggle (some 1)]) 1 { id := 1, audio := 1, handler := Handler.toggle 1 } 1
    (reachable_run _ _) (by decide) rfl
  ⟨reachable_run _ _, by decide, by decide, h.1, h.2.1⟩

/-- C17: with `userControlledAudio` true `playAudioSnippet` returns at its first
guard; the whole state is unchanged. -/
theorem c17_playAudioSnippet_user_controlled (s : State) (h : s.userControlledAudio = true) :
    playAudioSnippet s = s := by
  unfold playAudioSnippet
  simp only [h, if_true]

/-- Witness of C17: on `pageThree` after `lastItemUserTrace` the user's own
playback of item 2 runs; a call of `playAudioSnippet` leaves it running. -/
theorem c17_playAudioSnippet_user_controlled_witness :
    (run pageThree lastItemUserTrace).userControlledAudio = true ∧
    (run pageThree lastItemUserTrace).currentAudio = some 2 ∧
    playAudioSnippet (run pageThree lastItemUserTrace) = run pageThree lastItemUserTrace :=
  ⟨by decide, by decide, c17_playAudioSnippet_user_controlled _ (by decide)⟩

theorem stopAllAudio_audio_none (s : State) (j : Nat) (h : s.audio j = none) :
    (stopAllAudio s).audio j = none := by
  unfold stopAllAudio resetAllPlayPauseButtons
  simp only [clearAudioTimeout_audio]
  split
  · rename_i c _
    by_cases hj : j = c
    · subst hj; simp [seek0, pause, modAudio, setAt, h]
    · simp [seek0, pause, modAudio, setAt, hj, h]
  · exact h

theorem stopAllAudio_audio_keeps (s : State) (j : Nat) (a : Audio) (h : s.audio j = some a) :
    ∃ b, (stopAllAudio s).audio j = some b ∧ b.source = a.source ∧ b.src = a.src := by
  by_cases hc : s.currentAudio = some j
  · exact ⟨_, stopAllAudio_audio_current s j a hc h, rfl, rfl⟩
  · exact ⟨a, by rw [stopAllAudio_audio_other s j hc]; exact h, rfl, rfl⟩

/-- Without unlocked audio, or without an address to play for the active item,
`playAudioSnippet` past its first guard is `stopAllAudio`. -/
theorem playAudioSnippet_eq_stop (s : State) (huc : s.userControlledAudio = false)
    (h : s.audioEnabled = false ∨ ∀ i, item? s s.active = some i →
      s.audio i = none ∨ ∃ a, s.audio i = some a ∧ a.source ≠ some true ∧ a.src = false) :
    playAudioSnippet s = stopAllAudio s := by
  obtain ⟨hn, hact, hen, _⟩ := stopAllAudio_frame s
  unfold playAudioSnippet
  simp only [huc, Bool.false_eq_true, if_false]
  split
  · rfl
  · rename_i hen1
    have hen2 : s.audioEnabled = true := by
      rw [← hen]
      simpa using hen1
    rcases h with h | h
    · rw [hen2] at h; exact absurd h (by decide)
    · split
      · rfl
      · rename_i i hi
        have hi' : item? s s.active = some i := by
          unfold item? at hi ⊢
          rw [← hn, ← hact]; exact hi
        rcases h i hi' with hnone | ⟨a, ha, hs, hsrc⟩
        · simp only [stopAllAudio_audio_none s i hnone]
        · obtain ⟨b, hb, hbs, hbsrc⟩ := stopAllAudio_audio_keeps s i a ha
          have hs' : ¬ b.source = some true := by rw [hbs]; exact hs
          have hset : srcSet (stopAllAudio s) i = false := by
            simp [srcSet, hb, hbsrc, hsrc]
          simp only [hb, hs', if_false, hset, Bool.false_eq_true]

/-- C16 (fails on the code): in `silentItemCallState` audio is unlocked, the
active item 0 has no audio, and the audio of item 1 is current and playing with
its timer armed and its button playing.  `playAudioSnippet` is not a no-op: it
pauses and rewinds the audio of item 1, clears the handle and `audioTimeout`
and resets the button. -/
theorem c16_playAudioSnippet_stops_without_audio :
    silentItemCallState.userControlledAudio = false ∧
    item? silentItemCallState silentItemCallState.active = some 0 ∧
    silentItemCallState.audio 0 = none ∧
    silentItemCallState.currentAudio = some 1 ∧
    silentItemCallState.audioTimeout = some 1 ∧
    silentItemCallState.playing 1 = true ∧
    (silentItemCallState.audio 1).map (fun b => (b.paused, b.currentTime))
      = some (false, 10000) ∧
    (playAudioSnippet silentItemCallState).currentAudio = none ∧
    (playAudioSnippet silentItemCallState).audioTimeout = none ∧
    (playAudioSnippet silentItemCallState).playing 1 = false ∧
    ((playAudioSnippet silentItemCallState).audio 1).map (fun b => (b.paused, b.currentTime))
      = some (true, 0) := by
  decide

/-- C16 (amended): if audio has not been unlocked, or the active index is out
of range, or the active item has no audio, or its audio has neither a `source`
address nor an address of its own, then `playAudioSnippet` starts nothing: no
play promise is added and no timer is armed.  With `userControlledAudio` true
the state is unchanged; otherwise the state is the one `stopAllAudio` leaves,
which is the unchanged state when nothing was current, `audioTimeout` was null
and no affordance was playing. -/
theorem c16_playAudioSnippet_without_audio (s : State)
    (h : s.audioEnabled = false ∨ ∀ i, item? s s.active = some i →
      s.audio i = none ∨ ∃ a, s.audio i = some a ∧ a.source ≠ some true ∧ a.src = false) :
    (s.userControlledAudio = true → playAudioSnippet s = s) ∧
    (s.userControlledAudio = false → playAudioSnippet s = stopAllAudio s) ∧
    (s.userControlledAudio = false → s.currentAudio = none → s.audioTimeout = none →
      (∀ k, s.playing k = false) → playAudioSnippet s = s) ∧
    (playAudioSnippet s).pending = s.pending ∧
    (∀ t ∈ (playAudioSnippet s).timers, t ∈ s.timers) := by
  have hstop : s.userControlledAudio = false → playAudioSnippet s = stopAllAudio s :=
    fun huc => playAudioSnippet_eq_stop s huc h
  have hsame : s.userControlledAudio = true → playAudioSnippet s = s := by
    intro huc
    unfold playAudioSnippet
    simp only [huc, if_true]
  refine ⟨hsame, hstop, ?_, ?_, ?_⟩
  · intro huc hc ht hp
    rw [hstop huc, stopAllAudio_of_idle s hc ht]
    have : s.playing = fun _ => false := funext hp
    unfold resetAllPlayPauseButtons
    rw [← this]
  · cases huc : s.userControlledAudio
    · rw [hstop huc]; exact (stopAllAudio_frame s).2.2.2.2.1
    · rw [hsame huc]
  · cases huc : s.userControlledAudio
    · rw [hstop huc]; exact (frame_stopAllAudio s).2.2
    · rw [hsame huc]; exact fun _ h => h

/-- Witness of C16 (amended) at `silentItemCallState`. -/
theorem c16_playAudioSnippet_without_audio_witness :
    playAudioSnippet silentItemCallState = stopAllAudio silentItemCallState ∧
    (playAudioSnippet silentItemCallState).pending = silentItemCallState.pending :=
  have h := c16_playAudioSnippet_without_audio silentItemCallState
    (Or.inr (fun i hi => Or.inl (by
      have h0 : i = 0 := (Option.some.inj ((show item? silentItemCallState
        silentItemCallState.active = some 0 by decide).symm.trans hi)).symm
      subst h0
      decide)))
  ⟨h.2.1 (by decide), h.2.2.2.1⟩

/-- C14 (fails on the code): on `pageThree`, while the snippet of item 1 plays,
the button of item 2 is clicked and its play promise is rejected: the handler
of lines 300-305 clears the handle and leaves the snippet timer armed, so
`currentAudio` is null while `audioTimeout` names an armed timer.  And after
the timer of a snippet has fired, `currentAudio` is null while `audioTimeout`
still holds the id of the timer that fired. -/
theorem c14_null_handle_with_timer :
    (run pageThree [Event.goNext, Event.settle 0 true, Event.toggle (some 2),
      Event.settle 1 false]).currentAudio = none ∧
    (run pageThree [Event.goNext, Event.settle 0 true, Event.toggle (some 2),
      Event.settle 1 false]).audioTimeout = some 1 ∧
    (run pageThree [Event.goNext, Event.settle 0 true, Event.toggle (some 2),
      Event.settle 1 false]).timers = [{ id := 1, audio := 1, delay := 60000 }] ∧
    (run pageThree [Event.goNext, Event.settle 0 true, Event.fire 1]).currentAudio = none ∧
    (run pageThree [Event.goNext, Event.settle 0 true, Event.fire 1]).audioTimeout = some 1 ∧
    (run pageThree [Event.goNext, Event.settle 0 true, Event.fire 1]).timers = [] := by
  decide

/-- C14 (amended): in every reachable state in which `currentAudio` is null an
armed snippet timer is inert: when it fires, every audio element, the handle,
`audioTimeout`, the flags, the affordances and the pending play promises are as
before.  After `stopAllAudio` the handle and `audioTimeout` are both null and
no timer is armed. -/
theorem c14_timer_inert_without_handle (d : Dom) (s : State) (hr : Reachable d s) :
    (s.currentAudio = none → ∀ id : Nat,
      (fireTimer s id).audio = s.audio ∧
      (fireTimer s id).currentAudio = none ∧
      (fireTimer s id).audioTimeout = s.audioTimeout ∧
      (fireTimer s id).userControlledAudio = s.userControlledAudio ∧
      (fireTimer s id).audioEnabled = s.audioEnabled ∧
      (fireTimer s id).active = s.active ∧
      (fireTimer s id).playing = s.playing ∧
      (fireTimer s id).pending = s.pending) ∧
    ((stopAllAudio s).currentAudio = none ∧ (stopAllAudio s).audioTimeout = none ∧
      (stopAllAudio s).timers = []) := by
  constructor
  · intro hc id
    have h : fireTimer s id = s ∨
        fireTimer s id = { s with timers := s.timers.filter (fun x => x.id ≠ id) } := by
      unfold fireTimer
      split
      · exact Or.inl rfl
      · right
        unfold expire
        simp [hc]
    rcases h with h | h <;> rw [h] <;> simp [hc]
  · have h := stopAllAudio_post (inv_of_reachable hr)
    exact ⟨h.1, h.2.1, h.2.2.1⟩

/-- Witness of C14 (amended): the first state of `c14_null_handle_with_timer`;
its armed timer fires and changes nothing. -/
theorem c14_timer_inert_without_handle_witness :
    Reachable pageThree (run pageThree [Event.goNext, Event.settle 0 true,
      Event.toggle (some 2), Event.settle 1 false]) ∧
    (run pageThree [Event.goNext, Event.settle 0 true, Event.toggle (some 2),
      Event.settle 1 false]).currentAudio = none ∧
    (fireTimer (run pageThree [Event.goNext, Event.settle 0 true, Event.toggle (some 2),
      Event.settle 1 false]) 1).audio =
      (run pageThree [Event.goNext, Event.settle 0 true, Event.toggle (some 2),
        Event.settle 1 false]).audio ∧
    (fireTimer (run pageThree [Event.goNext, Event.settle 0 true, Event.toggle (some 2),
      Event.settle 1 false]) 1).currentAudio = none :=
  have h := (c14_timer_inert_without_handle pageThree _ (reachable_run _ _)).1 (by decide) 1
  ⟨reachable_run _ _, by decide, h.1, h.2.1⟩

theorem navFrame_refl (s : State) : NavFrame s s :=
  ⟨rfl, rfl, rfl, rfl, rfl⟩

theorem navFrame_trans {s t u : State} (h1 : NavFrame s t) (h2 : NavFrame t u) : NavFrame s u :=
  ⟨h2.1.trans h1.1, h2.2.1.trans h1.2.1, h2.2.2.1.trans h1.2.2.1,
    h2.2.2.2.1.trans h1.2.2.2.1, h2.2.2.2.2.trans h1.2.2.2.2⟩

theorem navFrame_updatePlayPauseButton (s : State) (k : Int) (b : Bool) :
    NavFrame s (updatePlayPauseButton s k b) := by
  unfold updatePlayPauseButton
  split
  · exact ⟨rfl, rfl, rfl, rfl, rfl⟩
  · exact navFrame_refl s

theorem navFrame_clearAudioTimeout (s : State) : NavFrame s (clearAudioTimeout s) := by
  unfold clearAudioTimeout
  split
  · exact ⟨rfl, rfl, rfl, rfl, rfl⟩
  · exact navFrame_refl s

theorem navFrame_stopAllAudio (s : State) : NavFrame s (stopAllAudio s) := by
  unfold stopAllAudio
  have h1 : ∀ u : State, NavFrame u (resetAllPlayPauseButtons (clearAudioTimeout u)) := fun u =>
    navFrame_trans (navFrame_clearAudioTimeout u) ⟨rfl, rfl, rfl, rfl, rfl⟩
  refine navFrame_trans ?_ (h1 _)
  split
  · exact ⟨rfl, rfl, rfl, rfl, rfl⟩
  · exact navFrame_refl s

theorem navFrame_enableAudio (s : State) : NavFrame s (enableAudio s) := by
  unfold enableAudio
  split
  · exact navFrame_refl s
  · simp only []
    split
    · exact ⟨rfl, rfl, rfl, rfl, rfl⟩
    · split
      · exact ⟨rfl, rfl, rfl, rfl, rfl⟩
      · split <;> exact ⟨rfl, rfl, rfl, rfl, rfl⟩

theorem navFrame_togglePause (s : State) (i : Nat) (k : Int) : NavFrame s (togglePause s i k) := by
  unfold togglePause
  have h1 : NavFrame s (clearAudioTimeout (pause s i)) :=
    navFrame_trans (s := s) (t := pause s i) ⟨rfl, rfl, rfl, rfl, rfl⟩
      (navFrame_clearAudioTimeout _)
  have h2 : NavFrame s (if (clearAudioTimeout (pause s i)).currentAudio = some i then
      { clearAudioTimeout (pause s i) with currentAudio := none }
      else clearAudioTimeout (pause s i)) := by
    split
    · exact navFrame_trans h1 ⟨rfl, rfl, rfl, rfl, rfl⟩
    · exact h1
  exact navFrame_trans (navFrame_trans h2 (navFrame_updatePlayPauseButton _ k false))
    ⟨rfl, rfl, rfl, rfl, rfl⟩

theorem navFrame_stopOther (s : State) (i : Nat) : NavFrame s (stopOther s i) := by
  unfold stopOther
  split
  · exact navFrame_refl s
  · split
    · exact navFrame_refl s
    · simp only []
      split
      · exact navFrame_trans ⟨rfl, rfl, rfl, rfl, rfl⟩ (navFrame_updatePlayPauseButton _ _ _)
      · exact ⟨rfl, rfl, rfl, rfl, rfl⟩

theorem navFrame_togglePlay (s : State) (i : Nat) (k : Int) : NavFrame s (togglePlay s i k) := by
  unfold togglePlay
  exact navFrame_trans (navFrame_stopOther s i) ⟨rfl, rfl, rfl, rfl, rfl⟩

theorem navFrame_toggleBranch (s : State) (i : Nat) (k : Int) :
    NavFrame s (toggleBranch s i k) := by
  unfold toggleBranch
  split
  · exact navFrame_togglePause _ _ _
  · exact navFrame_togglePlay _ _ _

theorem navFrame_rebind (s : State) (i : Nat) (a : Audio) : NavFrame s (rebind s i a) := by
  unfold rebind
  split
  · exact ⟨rfl, rfl, rfl, rfl, rfl⟩
  · exact navFrame_refl s

theorem navFrame_toggleUserPlayback (s : State) (idx : Option Int) :
    NavFrame s (toggleUserPlayback s idx) := by
  unfold toggleUserPlayback
  have h1 : NavFrame s { enableAudio s with userControlledAudio := true } :=
    navFrame_trans (navFrame_enableAudio s) ⟨rfl, rfl, rfl, rfl, rfl⟩
  revert h1
  generalize ({ enableAudio s with userControlledAudio := true } : State) = s1
  intro h1
  simp only []
  split
  · exact h1
  · split
    · exact h1
    · split
      · exact h1
      · split
        · exact h1
        · exact h1
        · exact navFrame_trans h1
            (navFrame_trans (navFrame_rebind s1 _ _) (navFrame_toggleBranch _ _ _))

theorem navFrame_expire (s : State) (h : Nat) : NavFrame s (expire s h) := by
  unfold expire
  split
  · exact navFrame_trans ⟨rfl, rfl, rfl, rfl, rfl⟩ (navFrame_updatePlayPauseButton _ _ _)
  · exact navFrame_refl s

theorem navFrame_fireTimer (s : State) (id : Nat) : NavFrame s (fireTimer s id) := by
  unfold fireTimer
  split
  · exact navFrame_refl s
  · exact navFrame_trans ⟨rfl, rfl, rfl, rfl, rfl⟩ (navFrame_expire _ _)

theorem navFrame_runHandler (s : State) (p : Attempt) (ok : Bool) :
    NavFrame s (runHandler s p ok) := by
  unfold runHandler
  split
  · exact ⟨rfl, rfl, rfl, rfl, rfl⟩
  · exact navFrame_refl s
  · exact navFrame_updatePlayPauseButton _ _ _
  · exact navFrame_updatePlayPauseButton _ _ _
  · exact navFrame_trans (navFrame_updatePlayPauseButton _ _ _) (navFrame_clearAudioTimeout _)
  · exact navFrame_trans (navFrame_updatePlayPauseButton _ _ _) ⟨rfl, rfl, rfl, rfl, rfl⟩

theorem navFrame_settle (s : State) (id : Nat) (ok : Bool) : NavFrame s (settle s id ok) := by
  unfold settle
  split
  · exact navFrame_refl s
  · exact navFrame_trans ⟨rfl, rfl, rfl, rfl, rfl⟩ (navFrame_runHandler _ _ _)

theorem navFrame_mediaListener (s : State) (i : Nat) (b : Bool) :
    NavFrame s (mediaListener s i b) := by
  unfold mediaListener
  split
  · exact navFrame_updatePlayPauseButton _ _ _
  · exact navFrame_refl s

theorem navFrame_playbackEnded (s : State) (i : Nat) : NavFrame s (playbackEnded s i) := by
  unfold playbackEnded
  split
  · exact navFrame_trans (s := s) (t := modAudio s i _) ⟨rfl, rfl, rfl, rfl, rfl⟩
      (navFrame_mediaListener _ _ _)
  · exact navFrame_refl s

theorem navFrame_elapse (s : State) (i dt : Nat) : NavFrame s (elapse s i dt) := by
  unfold elapse
  split
  · exact ⟨rfl, rfl, rfl, rfl, rfl⟩
  · exact navFrame_refl s

theorem navInv_of_navFrame {s t : State} (h : NavInv s) (hf : NavFrame s t) : NavInv t := by
  obtain ⟨hn, hact, hm, hnh, hph⟩ := hf
  constructor
  · intro j j' hj hj' h1 h2
    rw [hn] at hj hj'
    rw [hm] at h1 h2
    exact h.1 j j' hj hj' h1 h2
  · intro i hi
    have hi' : item? s s.active = some i := by
      unfold item? at hi ⊢
      rw [← hn, ← hact]; exact hi
    obtain ⟨h1, h2, h3⟩ := h.2 i hi'
    rw [hm, hnh, hph, hact, hn]
    exact ⟨h1, h2, h3⟩

theorem oldActive_some {s : State} {j : Nat} (h : oldActive s = some j) :
    j < s.n ∧ s.mark j = true := by
  unfold oldActive at h
  exact ⟨List.mem_range.mp (List.mem_of_find?_eq_some h), List.find?_some h⟩

theorem oldActive_none {s : State} (h : oldActive s = none) (j : Nat) (hj : j < s.n) :
    s.mark j = false := by
  unfold oldActive at h
  rw [List.find?_eq_none] at h
  have := h j (List.mem_range.mpr hj)
  simpa using this

/-- After line 150 no item carries the mark, when at most one did. -/
theorem unmark_oldActive {s : State} (h : AtMostOneMark s) (j : Nat) (hj : j < s.n) :
    (match oldActive s with
      | some j => { s with mark := setAt s.mark j false }
      | none => s).mark j = false := by
  split
  · rename_i o ho
    obtain ⟨ho1, ho2⟩ := oldActive_some ho
    by_cases hjo : j = o
    · simp [setAt, hjo]
    · simp only [setAt, hjo, if_false]
      cases hm : s.mark j
      · rfl
      · exact absurd (h j o hj ho1 hm ho2) hjo
  · rename_i ho
    exact oldActive_none ho j hj

theorem navInv_setSlider {s : State} (h : AtMostOneMark s) : NavInv (setSlider s) := by
  unfold setSlider
  have hun := unmark_oldActive h
  generalize hs1 : (match oldActive s with
      | some j => { s with mark := setAt s.mark j false }
      | none => s) = s1 at hun
  have hn : s1.n = s.n := by rw [← hs1]; split <;> rfl
  simp only []
  split
  · rename_i hnone
    constructor
    · intro j j' hj _ h1 _
      rw [hn] at hj
      rw [hun j hj] at h1
      exact absurd h1 (by decide)
    · intro i hi
      rw [hnone] at hi
      exact absurd hi (by simp)
  · rename_i i hi
    obtain ⟨_, _, hii, hilt⟩ := item?_eq_some hi
    have key : ∀ s4 : State, s4.n = s1.n → s4.active = s1.active →
        s4.mark = setAt s1.mark i true →
        (s4.nextHidden = true ↔ s1.active = (s1.n : Int) - 1) →
        (s4.prevHidden = true ↔ s1.active = 0) →
        NavInv (playAudioSnippet { s4 with userControlledAudio := false }) := by
      intro s4 h4n h4a h4m h4nh h4ph
      obtain ⟨_, p2, _, p4, p5, p6, p7⟩ :=
        playAudioSnippet_frame { s4 with userControlledAudio := false }
      have pn : (playAudioSnippet { s4 with userControlledAudio := false }).n = s1.n :=
        p4.trans h4n
      have pa : (playAudioSnippet { s4 with userControlledAudio := false }).active = s1.active :=
        p2.trans h4a
      have pm : (playAudioSnippet { s4 with userControlledAudio := false }).mark
          = setAt s1.mark i true := p5.trans h4m
      constructor
      · intro j j' hj hj' h1 h2
        rw [pn, hn] at hj hj'
        rw [pm] at h1 h2
        have e1 : j = i := by
          by_contra hne
          simp only [setAt, hne, if_false] at h1
          rw [hun j hj] at h1
          exact absurd h1 (by decide)
        have e2 : j' = i := by
          by_contra hne
          simp only [setAt, hne, if_false] at h2
          rw [hun j' hj'] at h2
          exact absurd h2 (by decide)
        rw [e1, e2]
      · intro i' hi'
        have hi2 : item? s1 s1.active = some i' := by
          unfold item? at hi' ⊢
          rw [← pn, ← pa]; exact hi'
        have hieq : i' = i := Option.some.inj (hi2.symm.trans hi)
        subst hieq
        rw [pm, p6, p7, pa, pn]
        exact ⟨by simp [setAt], h4nh, h4ph⟩
    split <;> split
    · rename_i h3 h4
      exact key _ rfl rfl rfl ⟨fun _ => h3, fun _ => rfl⟩ ⟨fun _ => h4, fun _ => rfl⟩
    · rename_i h3 h4
      exact key _ rfl rfl rfl ⟨fun _ => h3, fun _ => rfl⟩
        ⟨fun hf => absurd hf (by simp), fun hf => absurd hf h4⟩
    · rename_i h3 h4
      exact key _ rfl rfl rfl ⟨fun hf => absurd hf (by simp), fun hf => absurd hf h3⟩
        ⟨fun _ => h4, fun _ => rfl⟩
    · rename_i h3 h4
      exact key _ rfl rfl rfl ⟨fun hf => absurd hf (by simp), fun hf => absurd hf h3⟩
        ⟨fun hf => absurd hf (by simp), fun hf => absurd hf h4⟩

theorem atMostOneMark_setActive {s t : State} (h : AtMostOneMark s) (hf : NavFrame s t)
    (k : Int) : AtMostOneMark { t with active := k } := by
  intro j j' hj hj' h1 h2
  have hn : t.n = s.n := hf.1
  have hm : t.mark = s.mark := hf.2.2.1
  exact h j j' (hn ▸ hj) (hn ▸ hj') (hm ▸ h1) (hm ▸ h2)

theorem navInv_jumpIfValid {s t : State} (h : NavInv s) (hf : NavFrame s t) (idx : Option Int) :
    NavInv (jumpIfValid t idx) := by
  unfold jumpIfValid
  split
  · exact navInv_of_navFrame h hf
  · split
    · exact navInv_setSlider (atMostOneMark_setActive h.1 hf _)
    · exact navInv_of_navFrame h hf

theorem navInv_step {s : State} (h : NavInv s) (e : Event) : NavInv (step s e) := by
  cases e with
  | goNext => exact navInv_setSlider (atMostOneMark_setActive h.1 (navFrame_enableAudio s) _)
  | goPrevious => exact navInv_setSlider (atMostOneMark_setActive h.1 (navFrame_enableAudio s) _)
  | trackLink idx => exact navInv_jumpIfValid h (navFrame_refl s) idx
  | menuLink idx => exact navInv_jumpIfValid h (navFrame_enableAudio s) idx
  | toggle idx => exact navInv_of_navFrame h (navFrame_toggleUserPlayback s idx)
  | menuOpen => exact navInv_of_navFrame h (navFrame_stopAllAudio s)
  | docClick => exact navInv_of_navFrame h (navFrame_enableAudio s)
  | fire t => exact navInv_of_navFrame h (navFrame_fireTimer s t)
  | settle a ok => exact navInv_of_navFrame h (navFrame_settle s a ok)
  | mediaPlay i => exact navInv_of_navFrame h (navFrame_mediaListener s i true)
  | mediaPause i => exact navInv_of_navFrame h (navFrame_mediaListener s i false)
  | mediaEnded i => exact navInv_of_navFrame h (navFrame_playbackEnded s i)
  | elapse i dt => exact navInv_of_navFrame h (navFrame_elapse s i dt)

theorem navInv_of_reachable {d : Dom} (hd : MarkupOk d) {s : State} (h : Reachable d s) :
    NavInv s := by
  induction h with
  | init => exact navInv_setSlider hd
  | step e _ ih => exact navInv_step ih e

/-- C15 (fails on the code): on `pageThree` two next commands make item 2 the
one marked item; a third, issued at the last item, drives `active` to 3 and
leaves no item marked. -/
theorem c15_no_item_marked_past_the_end :
    (run pageThree [Event.goNext, Event.goNext]).active = 2 ∧
    (List.range 3).map (run pageThree [Event.goNext, Event.goNext]).mark
      = [false, false, true] ∧
    (run pageThree [Event.goNext, Event.goNext, Event.goNext]).active = 3 ∧
    (run pageThree [Event.goNext, Event.goNext, Event.goNext]).n = 3 ∧
    (List.range 3).map (run pageThree [Event.goNext, Event.goNext, Event.goNext]).mark
      = [false, false, false] := by
  decide

/-- C15 (amended): on a page whose markup marks at most one item, in every
reachable state whose active index is in range, the item at the active index
carries the active mark and no other item does. -/
theorem c15_active_mark (d : Dom) (hd : MarkupOk d) (s : State) (hr : Reachable d s) (i : Nat)
    (hi : item? s s.active = some i) :
    s.mark i = true ∧ ∀ j, j < s.n → s.mark j = true → j = i := by
  have h := navInv_of_reachable hd hr
  have hm := (h.2 i hi).1
  exact ⟨hm, fun j hj hmj => h.1 j i hj (item?_eq_some hi).2.2.2 hmj hm⟩

theorem markupOk_pageThree : MarkupOk pageThree := by
  intro j j' _ _ h1 h2
  have e1 : j = 0 := by simpa [pageThree] using h1
  have e2 : j' = 0 := by simpa [pageThree] using h2
  rw [e1, e2]

/-- Witness of C15 (amended): on `pageThree` after next, a link to item 2 and
previous, item 1 is active. -/
theorem c15_active_mark_witness :
    MarkupOk pageThree ∧
    Reachable pageThree (run pageThree [Event.goNext, Event.trackLink (some 2),
      Event.goPrevious]) ∧
    item? (run pageThree [Event.goNext, Event.trackLink (some 2), Event.goPrevious])
      (run pageThree [Event.goNext, Event.trackLink (some 2), Event.goPrevious]).active
      = some 1 ∧
    (run pageThree [Event.goNext, Event.trackLink (some 2), Event.goPrevious]).mark 1 = true ∧
    (run pageThree [Event.goNext, Event.trackLink (some 2), Event.goPrevious]).mark 2 = false :=
  have h := c15_active_mark pageThree markupOk_pageThree
    (run pageThree [Event.goNext, Event.trackLink (some 2), Event.goPrevious])
    (reachable_run _ _) 1 (by decide)
  ⟨markupOk_pageThree, reachable_run _ _, by decide, h.1, by decide⟩

/-- The controls after a `setSlider` whose active index is in range. -/
theorem setSlider_controls (s : State) (i : Nat) (hi : item? s s.active = some i) :
    (setSlider s).n = s.n ∧ (setSlider s).active = s.active ∧
    ((setSlider s).nextHidden = true ↔ s.active = (s.n : Int) - 1) ∧
    ((setSlider s).prevHidden = true ↔ s.active = 0) := by
  have key : ∀ s4 : State, s4.n = s.n → s4.active = s.active →
      (s4.nextHidden = true ↔ s.active = (s.n : Int) - 1) →
      (s4.prevHidden = true ↔ s.active = 0) →
      (playAudioSnippet { s4 with userControlledAudio := false }).n = s.n ∧
      (playAudioSnippet { s4 with userControlledAudio := false }).active = s.active ∧
      ((playAudioSnippet { s4 with userControlledAudio := false }).nextHidden = true ↔
        s.active = (s.n : Int) - 1) ∧
      ((playAudioSnippet { s4 with userControlledAudio := false }).prevHidden = true ↔
        s.active = 0) := by
    intro s4 h4n h4a h4nh h4ph
    obtain ⟨_, p2, _, p4, _, p6, p7⟩ :=
      playAudioSnippet_frame { s4 with userControlledAudio := false }
    rw [p6, p7]
    exact ⟨p4.trans h4n, p2.trans h4a, h4nh, h4ph⟩
  unfold setSlider
  generalize hs1 : (match oldActive s with
      | some j => { s with mark := setAt s.mark j false }
      | none => s) = s1
  have hn : s1.n = s.n := by rw [← hs1]; split <;> rfl
  have hact : s1.active = s.active := by rw [← hs1]; split <;> rfl
  have hi1 : item? s1 s1.active = some i := by
    unfold item? at hi ⊢
    rw [hn, hact]; exact hi
  simp only [hi1]
  split <;> split
  · rename_i h3 h4
    exact key _ hn hact ⟨fun _ => by rw [← hact, ← hn]; exact h3, fun _ => rfl⟩
      ⟨fun _ => by rw [← hact]; exact h4, fun _ => rfl⟩
  · rename_i h3 h4
    exact key _ hn hact ⟨fun _ => by rw [← hact, ← hn]; exact h3, fun _ => rfl⟩
      ⟨fun hf => absurd hf (by simp), fun hf => absurd (hact.trans hf) h4⟩
  · rename_i h3 h4
    exact key _ hn hact
      ⟨fun hf => absurd hf (by simp), fun hf => absurd (by rw [hact, hn]; exact hf) h3⟩
      ⟨fun _ => by rw [← hact]; exact h4, fun _ => rfl⟩
  · rename_i h3 h4
    exact key _ hn hact
      ⟨fun hf => absurd hf (by simp), fun hf => absurd (by rw [hact, hn]; exact hf) h3⟩
      ⟨fun hf => absurd hf (by simp), fun hf => absurd (hact.trans hf) h4⟩

theorem controlsInv_of_navFrame {s t : State} (h : ControlsInv s) (hf : NavFrame s t) :
    ControlsInv t := by
  obtain ⟨hn, hact, _, hnh, hph⟩ := hf
  unfold ControlsInv
  rw [hn, hact, hnh, hph]
  exact h

theorem controlsInv_setSlider (s : State) (h : 0 ≤ s.active ∧ s.active < (s.n : Int)) :
    ControlsInv (setSlider s) := by
  obtain ⟨c1, c2, c3, c4⟩ := setSlider_controls s _ (item?_of_range s h)
  unfold ControlsInv
  rw [c1, c2]
  exact ⟨h.1, h.2, c3, c4⟩

theorem controlsInv_jumpIfValid {s : State} (h : ControlsInv s) (idx : Option Int) :
    ControlsInv (jumpIfValid s idx) := by
  unfold jumpIfValid
  split
  · exact h
  · split
    · rename_i hk
      exact controlsInv_setSlider _ hk
    · exact h

theorem controlsInv_step {s : State} (h : ControlsInv s) (e : Event)
    (hnext : e = Event.goNext → s.nextHidden = false)
    (hprev : e = Event.goPrevious → s.prevHidden = false) : ControlsInv (step s e) := by
  have hE := controlsInv_of_navFrame h (navFrame_enableAudio s)
  obtain ⟨h0, hlt, hnh, hph⟩ := h
  obtain ⟨en, ea, _, _, _⟩ := navFrame_enableAudio s
  cases e with
  | goNext =>
    have hvis := hnext rfl
    have hne : s.active ≠ (s.n : Int) - 1 := by
      intro hc
      have := hnh.mpr hc
      rw [hvis] at this
      exact absurd this (by decide)
    apply controlsInv_setSlider
    show 0 ≤ (enableAudio s).active + 1 ∧ (enableAudio s).active + 1 < ((enableAudio s).n : Int)
    rw [ea, en]
    omega
  | goPrevious =>
    have hvis := hprev rfl
    have hne : s.active ≠ 0 := by
      intro hc
      have := hph.mpr hc
      rw [hvis] at this
      exact absurd this (by decide)
    apply controlsInv_setSlider
    show 0 ≤ (enableAudio s).active - 1 ∧ (enableAudio s).active - 1 < ((enableAudio s).n : Int)
    rw [ea, en]
    omega
  | trackLink idx => exact controlsInv_jumpIfValid ⟨h0, hlt, hnh, hph⟩ idx
  | menuLink idx => exact controlsInv_jumpIfValid hE idx
  | toggle idx =>
    exact controlsInv_of_navFrame ⟨h0, hlt, hnh, hph⟩ (navFrame_toggleUserPlayback s idx)
  | menuOpen => exact controlsInv_of_navFrame ⟨h0, hlt, hnh, hph⟩ (navFrame_stopAllAudio s)
  | docClick => exact hE
  | fire t => exact controlsInv_of_navFrame ⟨h0, hlt, hnh, hph⟩ (navFrame_fireTimer s t)
  | settle a ok => exact controlsInv_of_navFrame ⟨h0, hlt, hnh, hph⟩ (navFrame_settle s a ok)
  | mediaPlay i =>
    exact controlsInv_of_navFrame ⟨h0, hlt, hnh, hph⟩ (navFrame_mediaListener s i true)
  | mediaPause i =>
    exact controlsInv_of_navFrame ⟨h0, hlt, hnh, hph⟩ (navFrame_mediaListener s i false)
  | mediaEnded i =>
    exact controlsInv_of_navFrame ⟨h0, hlt, hnh, hph⟩ (navFrame_playbackEnded s i)
  | elapse i dt => exact controlsInv_of_navFrame ⟨h0, hlt, hnh, hph⟩ (navFrame_elapse s i dt)

theorem controlsInv_of_guarded {d : Dom} (hn : 1 ≤ d.n) {s : State}
    (h : GuardedReachable d s) : ControlsInv s := by
  induction h with
  | init =>
    apply controlsInv_setSlider
    show (0 : Int) ≤ 0 ∧ (0 : Int) < (d.n : Int)
    omega
  | step e _ hnext hprev ih => exact controlsInv_step ih e hnext hprev

theorem setSlider_n (s : State) : (setSlider s).n = s.n := by
  unfold setSlider
  generalize hs1 : (match oldActive s with
      | some j => { s with mark := setAt s.mark j false }
      | none => s) = s1
  have hn : s1.n = s.n := by rw [← hs1]; split <;> rfl
  simp only []
  split
  · exact hn
  · have key : ∀ s4 : State, s4.n = s1.n →
        (playAudioSnippet { s4 with userControlledAudio := false }).n = s.n := fun s4 h4 =>
      ((playAudioSnippet_frame { s4 with userControlledAudio := false }).2.2.2.1.trans h4).trans hn
    split <;> split <;> exact key _ rfl

theorem jumpIfValid_n (s : State) (idx : Option Int) : (jumpIfValid s idx).n = s.n := by
  unfold jumpIfValid
  split
  · rfl
  · split
    · exact setSlider_n _
    · rfl

theorem step_n (s : State) (e : Event) : (step s e).n = s.n := by
  cases e with
  | goNext => exact (setSlider_n _).trans (navFrame_enableAudio s).1
  | goPrevious => exact (setSlider_n _).trans (navFrame_enableAudio s).1
  | trackLink idx => exact jumpIfValid_n s idx
  | menuLink idx => exact (jumpIfValid_n _ idx).trans (navFrame_enableAudio s).1
  | toggle idx => exact (navFrame_toggleUserPlayback s idx).1
  | menuOpen => exact (navFrame_stopAllAudio s).1
  | docClick => exact (navFrame_enableAudio s).1
  | fire t => exact (navFrame_fireTimer s t).1
  | settle a ok => exact (navFrame_settle s a ok).1
  | mediaPlay i => exact (navFrame_mediaListener s i true).1
  | mediaPause i => exact (navFrame_mediaListener s i false).1
  | mediaEnded i => exact (navFrame_playbackEnded s i).1
  | elapse i dt => exact (navFrame_elapse s i dt).1

theorem n_of_guarded {d : Dom} {s : State} (h : GuardedReachable d s) : s.n = d.n := by
  induction h with
  | init => exact setSlider_n (loaded d)
  | step e _ _ _ ih => exact (step_n _ e).trans ih

/-- C18: a `setSlider` whose active index is in range leaves the next control
hidden exactly when `active` is the last index and the previous control hidden
exactly when `active` is 0.  Consequently, on a page with at least one item, in
every state reached from `init` by events in which next is issued only while
the next control is visible and previous only while the previous control is
visible (links to any target, and every other event, at any time), the active
index is within `[0, N-1]`. -/
theorem c18_controls_guard_the_range (d : Dom) (hn : 1 ≤ d.n) :
    (∀ (s : State) (i : Nat), item? s s.active = some i →
      ((setSlider s).nextHidden = true ↔ s.active = (s.n : Int) - 1) ∧
      ((setSlider s).prevHidden = true ↔ s.active = 0)) ∧
    (∀ s : State, GuardedReachable d s →
      0 ≤ s.active ∧ s.active < (d.n : Int) ∧
      (s.nextHidden = true ↔ s.active = (d.n : Int) - 1) ∧
      (s.prevHidden = true ↔ s.active = 0)) := by
  constructor
  · intro s i hi
    exact (setSlider_controls s i hi).2.2
  · intro s hs
    have h := controlsInv_of_guarded hn hs
    have hsn := n_of_guarded hs
    unfold ControlsInv at h
    rw [hsn] at h
    exact h

/-- Witness of C18: on `pageThree` next, next, previous, each issued while its
control is visible; the last item is reached in between, where next is hidden. -/
theorem c18_controls_guard_the_range_witness :
    1 ≤ pageThree.n ∧
    GuardedReachable pageThree
      (run pageThree [Event.goNext, Event.goNext, Event.goPrevious]) ∧
    (run pageThree [Event.goNext, Event.goNext]).nextHidden = true ∧
    (0 ≤ (run pageThree [Event.goNext, Event.goNext, Event.goPrevious]).active ∧
      (run pageThree [Event.goNext, Event.goNext, Event.goPrevious]).active
        < (pageThree.n : Int)) :=
  have g1 : GuardedReachable pageThree (run pageThree [Event.goNext]) :=
    @GuardedReachable.step pageThree (init pageThree) Event.goNext GuardedReachable.init
      (fun _ => by decide) (fun h => absurd h (by decide))
  have g2 : GuardedReachable pageThree (run pageThree [Event.goNext, Event.goNext]) :=
    @GuardedReachable.step pageThree (run pageThree [Event.goNext]) Event.goNext g1
      (fun _ => by decide) (fun h => absurd h (by decide))
  have hg : GuardedReachable pageThree
      (run pageThree [Event.goNext, Event.goNext, Event.goPrevious]) :=
    @GuardedReachable.step pageThree (run pageThree [Event.goNext, Event.goNext])
      Event.goPrevious g2 (fun h => absurd h (by decide)) (fun _ => by decide)
  have h := (c18_controls_guard_the_range pageThree (by decide)).2 _ hg
  ⟨by decide, hg, by decide, h.1, h.2.1⟩

end Slider
